import Mathlib

/-!
# Verification of the calorie-counter analysis pipeline

Shallow embedding of the TypeScript sources of the food-photo
calorie-estimation app (src/app/lib/venice.ts, src/app/lib/multi-model/*,
the Netlify proxy function, and the Gemini helper file containing
`ensureIntegerValues`), together with proofs about the embedded code.

Modelling conventions:
* JavaScript runtime values are the inductive `JSVal` (numbers as `ℚ`;
  the claims under study concern JSON-like data, so `NaN`/`Infinity` and
  float rounding at the 53-bit boundary are outside the model and noted
  where relevant).
* `fetch` calls are oracles supplied by an environment record; throwing
  code returns `Except String α` where the `String` is the error message.
* Regex-based string rewriting is embedded as recursive scanners over
  `List Char` that reproduce the leftmost, non-overlapping, single-pass
  semantics of JavaScript `String.replace` with a global regex.
-/

namespace CalorieApp

/-! ## Character classes and decimal digits -/

/-- ASCII whitespace as matched by the `\s` class and skipped by
`parseFloat` (the Unicode space characters never occur in the strings
this code manipulates). -/
def isWsChar (c : Char) : Bool :=
  c.toNat = 32 || c.toNat = 9 || c.toNat = 10 || c.toNat = 13 || c.toNat = 11 || c.toNat = 12

/-- The regex `\d` class. -/
def isDigitChar (c : Char) : Bool := 48 ≤ c.toNat && c.toNat ≤ 57

/-- The regex `\w` class: `[A-Za-z0-9_]`. -/
def isWordChar (c : Char) : Bool :=
  (97 ≤ c.toNat && c.toNat ≤ 122) || (65 ≤ c.toNat && c.toNat ≤ 90) ||
    (48 ≤ c.toNat && c.toNat ≤ 57) || c.toNat = 95

/-- Decimal digit to character. -/
def digitChar : Nat → Char
  | 0 => '0' | 1 => '1' | 2 => '2' | 3 => '3' | 4 => '4'
  | 5 => '5' | 6 => '6' | 7 => '7' | 8 => '8' | _ => '9'

/-- Character to decimal digit value (codepoint minus 48). -/
def digitVal (c : Char) : Nat := c.toNat - 48

/-- Fuel-driven digit accumulator (structural recursion, so that the
kernel can evaluate concrete instances). -/
def natCharsGo : Nat → Nat → List Char → List Char
  | _, 0, acc => acc
  | 0, _, acc => acc
  | fuel + 1, n, acc => natCharsGo fuel (n / 10) (digitChar (n % 10) :: acc)

/-- Big-endian decimal digits of a natural number; `0` prints as `"0"`. -/
def natToDigitChars (n : Nat) : List Char :=
  if n = 0 then ['0'] else natCharsGo n n []

theorem natCharsGo_eq_digits :
    ∀ (fuel n : Nat) (acc : List Char), n ≤ fuel →
      natCharsGo fuel n acc = (Nat.digits 10 n).reverse.map digitChar ++ acc := by
  intro fuel
  induction fuel with
  | zero =>
      intro n acc hn
      interval_cases n
      simp [natCharsGo, Nat.digits_zero]
  | succ fuel ih =>
      intro n acc hn
      cases n with
      | zero => simp [natCharsGo, Nat.digits_zero]
      | succ m =>
          have hrec : (m + 1) / 10 ≤ fuel :=
            le_trans (Nat.le_of_lt_succ (Nat.div_lt_self (Nat.succ_pos m) (by norm_num)))
              (Nat.le_of_succ_le_succ hn)
          show natCharsGo fuel ((m + 1) / 10) (digitChar ((m + 1) % 10) :: acc) = _
          rw [ih _ _ hrec, @Nat.digits_def' 10 (by norm_num) (m + 1) (Nat.succ_pos m)]
          simp [List.reverse_cons]

theorem natToDigitChars_eq_digits {n : Nat} (h : n ≠ 0) :
    natToDigitChars n = (Nat.digits 10 n).reverse.map digitChar := by
  unfold natToDigitChars
  rw [if_neg h, natCharsGo_eq_digits n n [] le_rfl, List.append_nil]

/-- Value of a big-endian digit string (how a parser accumulates digits). -/
def digitsValue (l : List Char) : Nat :=
  l.foldl (fun a c => 10 * a + digitVal c) 0

/-- Decimal rendering of an integer, `String(n)` for integral JS numbers. -/
def intToChars (n : ℤ) : List Char :=
  if n < 0 then '-' :: natToDigitChars n.natAbs else natToDigitChars n.natAbs

theorem digitVal_digitChar {d : Nat} (h : d < 10) : digitVal (digitChar d) = d := by
  interval_cases d <;> rfl

theorem isDigitChar_digitChar {d : Nat} (h : d < 10) :
    isDigitChar (digitChar d) = true := by
  interval_cases d <;> decide

theorem digit_not_ws {c : Char} (h : isDigitChar c = true) : isWsChar c = false := by
  simp only [isDigitChar, Bool.and_eq_true, decide_eq_true_eq] at h
  simp only [isWsChar, Bool.or_eq_false_iff, decide_eq_false_iff_not]
  omega

theorem digit_ne_of {c x : Char} (h : isDigitChar c = true)
    (hx : isDigitChar x = false) : c ≠ x := by
  intro e
  rw [e, hx] at h
  cases h

theorem mem_natToDigitChars_isDigit {n : Nat} {c : Char}
    (h : c ∈ natToDigitChars n) : isDigitChar c = true := by
  by_cases hn : n = 0
  · subst hn
    rw [show natToDigitChars 0 = ['0'] from rfl, List.mem_singleton] at h
    subst h
    decide
  · rw [natToDigitChars_eq_digits hn] at h
    rcases List.mem_map.mp h with ⟨d, hd, rfl⟩
    exact isDigitChar_digitChar (Nat.digits_lt_base (by norm_num) (List.mem_reverse.mp hd))

theorem natToDigitChars_ne_nil (n : Nat) : natToDigitChars n ≠ [] := by
  by_cases hn : n = 0
  · subst hn
    simp [natToDigitChars]
  · rw [natToDigitChars_eq_digits hn]
    simp [Nat.digits_ne_nil_iff_ne_zero, hn]

theorem foldl_digits_eq_ofDigits (L : List Nat) (h : ∀ d ∈ L, d < 10) :
    (L.reverse.map digitChar).foldl (fun a c => 10 * a + digitVal c) 0 =
      Nat.ofDigits 10 L := by
  induction L with
  | nil => rfl
  | cons d T ih =>
      have hd : d < 10 := h d (List.mem_cons_self d T)
      have hT : ∀ x ∈ T, x < 10 := fun x hx => h x (List.mem_cons_of_mem _ hx)
      rw [List.reverse_cons, List.map_append, List.foldl_append, ih hT]
      simp [Nat.ofDigits_cons, digitVal_digitChar hd]
      ring

theorem digitsValue_natToDigitChars (n : Nat) :
    digitsValue (natToDigitChars n) = n := by
  by_cases hn : n = 0
  · subst hn
    decide
  · rw [natToDigitChars_eq_digits hn]
    unfold digitsValue
    rw [foldl_digits_eq_ofDigits _ (fun d hd => Nat.digits_lt_base (by norm_num) hd)]
    exact Nat.ofDigits_digits 10 n

/-! ## Generic takeWhile/dropWhile lemmas used by the scanners -/

theorem takeWhile_all {p : Char → Bool} :
    ∀ {l : List Char}, (∀ c ∈ l, p c = true) → l.takeWhile p = l
  | [], _ => rfl
  | c :: t, h => by
      have hc : p c = true := h c (List.mem_cons_self c t)
      simp only [List.takeWhile_cons, hc, if_true]
      exact congrArg (c :: ·) (takeWhile_all fun x hx => h x (List.mem_cons_of_mem _ hx))

theorem dropWhile_all {p : Char → Bool} :
    ∀ {l : List Char}, (∀ c ∈ l, p c = true) → l.dropWhile p = []
  | [], _ => rfl
  | c :: t, h => by
      have hc : p c = true := h c (List.mem_cons_self c t)
      simp only [List.dropWhile_cons, hc, if_true]
      exact dropWhile_all fun x hx => h x (List.mem_cons_of_mem _ hx)

theorem takeWhile_append_all {p : Char → Bool} {a b : List Char}
    (ha : ∀ c ∈ a, p c = true)
    (hb : ∀ c, b.head? = some c → p c = false) :
    (a ++ b).takeWhile p = a := by
  induction a with
  | nil =>
      simp only [List.nil_append]
      cases b with
      | nil => rfl
      | cons c t => simp [List.takeWhile_cons, hb c rfl]
  | cons c t ih =>
      have hc : p c = true := ha c (List.mem_cons_self c t)
      simp only [List.cons_append, List.takeWhile_cons, hc, if_true]
      exact congrArg (c :: ·) (ih fun x hx => ha x (List.mem_cons_of_mem _ hx))

theorem dropWhile_append_all {p : Char → Bool} {a b : List Char}
    (ha : ∀ c ∈ a, p c = true)
    (hb : ∀ c, b.head? = some c → p c = false) :
    (a ++ b).dropWhile p = b := by
  induction a with
  | nil =>
      simp only [List.nil_append]
      cases b with
      | nil => rfl
      | cons c t => simp [List.dropWhile_cons, hb c rfl]
  | cons c t ih =>
      have hc : p c = true := ha c (List.mem_cons_self c t)
      simp only [List.cons_append, List.dropWhile_cons, hc, if_true]
      exact ih fun x hx => ha x (List.mem_cons_of_mem _ hx)

theorem length_dropWhile_le (p : Char → Bool) (l : List Char) :
    (l.dropWhile p).length ≤ l.length :=
  (List.dropWhile_sublist p).length_le

/-! ## JS `parseFloat` and `Number.prototype.toString`

`parseFloat` skips leading whitespace, then parses the longest prefix of
the form `[+-]?(\d+(\.\d*)?|\.\d+)([eE][+-]?\d+)?` and returns its value
(`NaN`, i.e. `none`, when there is no digit).  The special literals
`Infinity`/`-Infinity`, which have no counterpart in `ℚ`, are modelled as
`none`; `ensureIntegerValues` — the only caller — leaves the string
unchanged in both cases, so the claims are insensitive to this choice. -/

/-- Optional sign; returns `(isNegative, rest)`. -/
def parseSign (l : List Char) : Bool × List Char :=
  match l with
  | c :: t => if c = '-' then (true, t) else if c = '+' then (false, t) else (false, l)
  | [] => (false, [])

/-- Optional exponent part `[eE][+-]?\d+`; when the digits are missing the
exponent characters are not consumed (JS `parseFloat("1e") = 1`). -/
def parseExp (l : List Char) : ℤ :=
  match l with
  | c :: t =>
      if c = 'e' ∨ c = 'E' then
        let (neg, t1) := parseSign t
        let es := t1.takeWhile isDigitChar
        if es.isEmpty then 0
        else if neg then -(digitsValue es : ℤ) else (digitsValue es : ℤ)
      else 0
  | [] => 0

/-- Numeric value from sign, integer digits, fraction digits and the
remaining input (searched for an exponent): the rational
`±(ip.fp) · 10^e`, assembled from integers and `mkRat` so that the
kernel can evaluate concrete instances. -/
def decValue (neg : Bool) (ip fp : List Char) (e : ℤ) : ℚ :=
  let mant : ℤ := (digitsValue ip : ℤ) * 10 ^ fp.length + (digitsValue fp : ℤ)
  let sm : ℤ := if neg then -mant else mant
  let k : ℤ := e - fp.length
  if 0 ≤ k then ((sm * 10 ^ k.toNat : ℤ) : ℚ) else mkRat sm (10 ^ (-k).toNat)

def buildFloat (neg : Bool) (ip fp rest : List Char) : ℚ :=
  decValue neg ip fp (parseExp rest)

/-- JS `Math.round`: round half toward `+∞`, i.e. `⌊x + 1/2⌋`, computed
on the numerator/denominator so that the kernel can evaluate it. -/
def jsMathRound (q : ℚ) : ℤ := (2 * q.num + (q.den : ℤ)) / (2 * (q.den : ℤ))

theorem jsMathRound_intCast (n : ℤ) : jsMathRound ((n : ℚ)) = n := by
  unfold jsMathRound
  rw [Rat.intCast_num, Rat.intCast_den]
  omega

/-- JS `parseFloat`, on the character list of the string. -/
def parseFloatQ (s : List Char) : Option ℚ :=
  let l := s.dropWhile isWsChar
  let (neg, l1) := parseSign l
  let ds := l1.takeWhile isDigitChar
  let l2 := l1.dropWhile isDigitChar
  if ds.isEmpty then
    match l2 with
    | '.' :: t =>
        let fs := t.takeWhile isDigitChar
        if fs.isEmpty then none
        else some (buildFloat neg [] fs (t.dropWhile isDigitChar))
    | _ => none
  else
    match l2 with
    | '.' :: t => some (buildFloat neg ds (t.takeWhile isDigitChar) (t.dropWhile isDigitChar))
    | _ => some (buildFloat neg ds [] l2)

/-- Smallest `k ≤ 63` with `d ∣ 10^k`, when one exists. -/
def pow10Div (d : Nat) : Option Nat :=
  (List.range 64).find? (fun k => 10 ^ k % d == 0)

/-- Digits of `n / 10^k` with the decimal point inserted `k` digits from
the right, fraction left-padded with zeros. -/
def decimalChars (n k : Nat) : List Char :=
  let ip := n / 10 ^ k
  let fpRaw := natToDigitChars (n % 10 ^ k)
  natToDigitChars ip ++ '.' :: (List.replicate (k - fpRaw.length) '0' ++ fpRaw)

/-- JS `Number.prototype.toString` on the model numbers.  Integers print
as decimal integers; other terminating decimals print in positional form
with no trailing zeros (`pow10Div` with the minimal exponent guarantees
the last digit is nonzero).  JS switches to exponent notation outside
`[1e-6, 1e21)` and prints non-terminating binary floats with 17
significant digits; neither regime matters for the claims settled here
(the guard in `ensureIntegerValues` that consumes this function is only
ever exercised on integers in the proofs below). -/
def qToChars (q : ℚ) : List Char :=
  if q.den = 1 then intToChars q.num
  else
    match pow10Div q.den with
    | some k =>
        let sign : List Char := if q.num < 0 then ['-'] else []
        sign ++ decimalChars (q.num.natAbs * 10 ^ k / q.den) k
    | none => intToChars (jsMathRound q)

/-! ### Roundtrip: integral values print and re-parse exactly -/

theorem qToChars_intCast (n : ℤ) : qToChars ((n : ℚ)) = intToChars n := by
  unfold qToChars
  rw [if_pos (Rat.intCast_den n), Rat.intCast_num]

theorem parseSign_digit {c : Char} {t : List Char} (h : isDigitChar c = true) :
    parseSign (c :: t) = (false, c :: t) := by
  simp only [parseSign]
  rw [if_neg (digit_ne_of h (by decide)), if_neg (digit_ne_of h (by decide))]

theorem parseFloatQ_digits {D : List Char} (hne : D ≠ [])
    (hdig : ∀ c ∈ D, isDigitChar c = true) :
    parseFloatQ D = some ((digitsValue D : ℚ)) := by
  obtain ⟨d, D', rfl⟩ := List.exists_cons_of_ne_nil hne
  have hd : isDigitChar d = true := hdig d (List.mem_cons_self d D')
  unfold parseFloatQ
  rw [List.dropWhile_cons, digit_not_ws hd]
  simp only [Bool.false_eq_true, if_false, parseSign_digit hd,
    takeWhile_all hdig, dropWhile_all hdig]
  rw [if_neg (by simp)]
  unfold buildFloat decValue parseExp
  simp [digitsValue]

theorem parseFloatQ_neg_digits {D : List Char} (hne : D ≠ [])
    (hdig : ∀ c ∈ D, isDigitChar c = true) :
    parseFloatQ ('-' :: D) = some (-(digitsValue D : ℚ)) := by
  obtain ⟨d, D', rfl⟩ := List.exists_cons_of_ne_nil hne
  unfold parseFloatQ
  rw [List.dropWhile_cons, show isWsChar '-' = false from by decide]
  simp only [Bool.false_eq_true, if_false, parseSign, eq_self_iff_true, if_true]
  rw [takeWhile_all hdig, dropWhile_all hdig]
  simp only [List.isEmpty_cons, Bool.false_eq_true, if_false]
  unfold buildFloat decValue parseExp
  simp [digitsValue]

theorem parseFloatQ_intToChars (n : ℤ) :
    parseFloatQ (intToChars n) = some ((n : ℚ)) := by
  have habs : ((n.natAbs : ℚ)) = |(n : ℚ)| := by
    rw [Int.cast_natAbs, Int.cast_abs]
  unfold intToChars
  by_cases hn : n < 0
  · rw [if_pos hn]
    rw [parseFloatQ_neg_digits (natToDigitChars_ne_nil _)
      (fun c hc => mem_natToDigitChars_isDigit hc)]
    rw [digitsValue_natToDigitChars, habs,
      abs_of_neg (by exact_mod_cast hn), neg_neg]
  · rw [if_neg hn]
    rw [parseFloatQ_digits (natToDigitChars_ne_nil _)
      (fun c hc => mem_natToDigitChars_isDigit hc)]
    rw [digitsValue_natToDigitChars, habs,
      abs_of_nonneg (by exact_mod_cast not_lt.mp hn)]

/-! ## JavaScript runtime values

JSON-like values as manipulated by the pipeline.  Numbers are `ℚ`
(`NaN`/`Infinity` and 53-bit float rounding are outside the model; the
values flowing through this code come from `JSON.parse`, whose numerals
are finite decimals).  Arrays and objects get their own list-shaped
inductives so that structural recursion and induction stay simple;
object fields are kept in insertion order, as JS does. -/

mutual
inductive JSVal : Type where
  | undefined : JSVal
  | null : JSVal
  | bool : Bool → JSVal
  | num : ℚ → JSVal
  | str : String → JSVal
  | arr : JSArr → JSVal
  | obj : JSObj → JSVal
deriving DecidableEq

inductive JSArr : Type where
  | nil : JSArr
  | cons : JSVal → JSArr → JSArr
deriving DecidableEq

inductive JSObj : Type where
  | nil : JSObj
  | cons : String → JSVal → JSObj → JSObj
deriving DecidableEq
end

/-- Look up a key in an object's field list (first binding; the JSON
parser below keeps at most one binding per key, as `JSON.parse` does). -/
def JSObj.find : JSObj → String → Option JSVal
  | .nil, _ => none
  | .cons k v t, key => if k = key then some v else JSObj.find t key

/-- JS member access `v.key`, `undefined` on missing fields and on
non-objects.  (In JS, reading a property of `null`/`undefined` throws;
every unguarded such access in the embedded code is modelled explicitly
at its call site.) -/
def getField (v : JSVal) (key : String) : JSVal :=
  match v with
  | .obj fs => (fs.find key).getD .undefined
  | _ => .undefined

def JSArr.get? : JSArr → Nat → Option JSVal
  | .nil, _ => none
  | .cons h _, 0 => some h
  | .cons _ t, n + 1 => JSArr.get? t n

/-- JS indexed access `v[i]`: array element, object field `"i"`, or the
one-character string for string receivers. -/
def jsIndex (v : JSVal) (i : Nat) : JSVal :=
  match v with
  | .arr xs => (xs.get? i).getD .undefined
  | .obj _ => getField v (String.mk (natToDigitChars i))
  | .str s => match s.toList.drop i with
      | c :: _ => .str (String.mk [c])
      | [] => .undefined
  | _ => .undefined

/-- JS truthiness. -/
def truthy (v : JSVal) : Bool :=
  match v with
  | .undefined => false
  | .null => false
  | .bool b => b
  | .num q => decide (q ≠ 0)
  | .str s => decide (s ≠ "")
  | .arr _ => true
  | .obj _ => true

/-- JS `a || b`. -/
def jsOr (a b : JSVal) : JSVal := if truthy a then a else b

/-- JS `a ?? b` (nullish coalescing). -/
def jsNullish (a b : JSVal) : JSVal :=
  match a with
  | .undefined => b
  | .null => b
  | _ => a

mutual
/-- JS `String(v)` / template-literal interpolation. -/
def jsToString : JSVal → String
  | .undefined => "undefined"
  | .null => "null"
  | .bool b => if b then "true" else "false"
  | .num q => String.mk (qToChars q)
  | .str s => s
  | .arr xs => jsArrJoinComma xs
  | .obj _ => "[object Object]"

/-- `Array.prototype.toString`: elements joined by `","`, with `null`
and `undefined` elements rendered as the empty string. -/
def jsArrJoinComma : JSArr → String
  | .nil => ""
  | .cons h .nil => jsElemString h
  | .cons h (.cons h2 t) => jsElemString h ++ "," ++ jsArrJoinComma (.cons h2 t)

def jsElemString : JSVal → String
  | .undefined => ""
  | .null => ""
  | v => jsToString v
end

/-- JS `parseInt(String(v))`: skip whitespace, optional sign, then the
leading run of decimal digits; `none` is `NaN`.  (The `0x` hex prefix is
not modelled; no string this code parses is hexadecimal.) -/
def parseIntJS (v : JSVal) : Option ℤ :=
  let l := (jsToString v).toList.dropWhile isWsChar
  let (neg, l1) := parseSign l
  let ds := l1.takeWhile isDigitChar
  if ds.isEmpty then none
  else some (if neg then -(digitsValue ds : ℤ) else (digitsValue ds : ℤ))

/-- JS `parseInt(v) || 0`. -/
def parseIntOr0 (v : JSVal) : ℤ := (parseIntJS v).getD 0

/-- JS `parseInt(v) || 1`. -/
def parseIntOr1 (v : JSVal) : ℤ :=
  match parseIntJS v with
  | some n => if n = 0 then 1 else n
  | none => 1

/-! ## `ensureIntegerValues` (Gemini helper file)

Direct embedding of `ensureIntegerValues`: numbers are `Math.round`ed;
strings are re-rendered from `Math.round(parseFloat(s))` when
`parseFloat` finds a number whose canonical `toString` differs from the
string; arrays and objects recurse; everything else is returned
unchanged. -/

mutual
def ensureIntegerValues : JSVal → JSVal
  | .null => .null
  | .undefined => .undefined
  | .num q => .num ((jsMathRound q : ℤ) : ℚ)
  | .str s =>
      match parseFloatQ s.toList with
      | none => .str s
      | some q =>
          if String.mk (qToChars q) ≠ s then .str (String.mk (intToChars (jsMathRound q)))
          else .str s
  | .bool b => .bool b
  | .arr xs => .arr (ensureIntegerValuesArr xs)
  | .obj fs => .obj (ensureIntegerValuesObj fs)

def ensureIntegerValuesArr : JSArr → JSArr
  | .nil => .nil
  | .cons h t => .cons (ensureIntegerValues h) (ensureIntegerValuesArr t)

def ensureIntegerValuesObj : JSObj → JSObj
  | .nil => .nil
  | .cons k v t => .cons k (ensureIntegerValues v) (ensureIntegerValuesObj t)
end

mutual
/-- Every number occurring anywhere inside the value is an integer. -/
def allIntegerNumbers : JSVal → Bool
  | .num q => q.den == 1
  | .arr xs => allIntegerNumbersArr xs
  | .obj fs => allIntegerNumbersObj fs
  | _ => true

def allIntegerNumbersArr : JSArr → Bool
  | .nil => true
  | .cons h t => allIntegerNumbers h && allIntegerNumbersArr t

def allIntegerNumbersObj : JSObj → Bool
  | .nil => true
  | .cons _ v t => allIntegerNumbers v && allIntegerNumbersObj t
end

theorem ensureIntegerValues_str_of_none {s : String}
    (h : parseFloatQ s.toList = none) :
    ensureIntegerValues (JSVal.str s) = JSVal.str s := by
  simp only [ensureIntegerValues, h]

theorem ensureIntegerValues_str_idem (s : String) :
    ensureIntegerValues (ensureIntegerValues (JSVal.str s)) =
      ensureIntegerValues (JSVal.str s) := by
  cases h : parseFloatQ s.toList with
  | none => rw [ensureIntegerValues_str_of_none h, ensureIntegerValues_str_of_none h]
  | some q =>
      by_cases hg : String.mk (qToChars q) ≠ s
      · have h1 : ensureIntegerValues (JSVal.str s) =
            JSVal.str (String.mk (intToChars (jsMathRound q))) := by
          simp only [ensureIntegerValues, h, if_pos hg]
        rw [h1]
        have h2 : parseFloatQ (String.mk (intToChars (jsMathRound q))).toList =
            some ((jsMathRound q : ℤ) : ℚ) := parseFloatQ_intToChars (jsMathRound q)
        simp only [ensureIntegerValues, h2, qToChars_intCast]
        rw [if_neg (fun hne => hne rfl)]
      · have h1 : ensureIntegerValues (JSVal.str s) = JSVal.str s := by
          simp only [ensureIntegerValues, h, if_neg hg]
        rw [h1, h1]

mutual
theorem ensureIntegerValues_idem : (v : JSVal) →
    ensureIntegerValues (ensureIntegerValues v) = ensureIntegerValues v
  | .null => rfl
  | .undefined => rfl
  | .bool _ => rfl
  | .num q => by
      simp only [ensureIntegerValues, jsMathRound_intCast]
  | .str s => ensureIntegerValues_str_idem s
  | .arr xs => by
      simp only [ensureIntegerValues, ensureIntegerValuesArr_idem xs]
  | .obj fs => by
      simp only [ensureIntegerValues, ensureIntegerValuesObj_idem fs]

theorem ensureIntegerValuesArr_idem : (xs : JSArr) →
    ensureIntegerValuesArr (ensureIntegerValuesArr xs) = ensureIntegerValuesArr xs
  | .nil => rfl
  | .cons h t => by
      simp only [ensureIntegerValuesArr, ensureIntegerValues_idem h,
        ensureIntegerValuesArr_idem t]

theorem ensureIntegerValuesObj_idem : (fs : JSObj) →
    ensureIntegerValuesObj (ensureIntegerValuesObj fs) = ensureIntegerValuesObj fs
  | .nil => rfl
  | .cons k v t => by
      simp only [ensureIntegerValuesObj, ensureIntegerValues_idem v,
        ensureIntegerValuesObj_idem t]
end

mutual
theorem allIntegerNumbers_ensure : (v : JSVal) →
    allIntegerNumbers (ensureIntegerValues v) = true
  | .null => rfl
  | .undefined => rfl
  | .bool _ => rfl
  | .num q => by
      simp [ensureIntegerValues, allIntegerNumbers, Rat.intCast_den]
  | .str s => by
      cases h : parseFloatQ s.toList with
      | none => rw [ensureIntegerValues_str_of_none h]; rfl
      | some q =>
          by_cases hg : String.mk (qToChars q) ≠ s
          · simp only [ensureIntegerValues, h, if_pos hg]; rfl
          · simp only [ensureIntegerValues, h, if_neg hg]; rfl
  | .arr xs => by
      simp only [ensureIntegerValues, allIntegerNumbers, allIntegerNumbersArr_ensure xs]
  | .obj fs => by
      simp only [ensureIntegerValues, allIntegerNumbers, allIntegerNumbersObj_ensure fs]

theorem allIntegerNumbersArr_ensure : (xs : JSArr) →
    allIntegerNumbersArr (ensureIntegerValuesArr xs) = true
  | .nil => rfl
  | .cons h t => by
      simp only [ensureIntegerValuesArr, allIntegerNumbersArr,
        allIntegerNumbers_ensure h, allIntegerNumbersArr_ensure t, Bool.and_self]

theorem allIntegerNumbersObj_ensure : (fs : JSObj) →
    allIntegerNumbersObj (ensureIntegerValuesObj fs) = true
  | .nil => rfl
  | .cons k v t => by
      simp only [ensureIntegerValuesObj, allIntegerNumbersObj,
        allIntegerNumbers_ensure v, allIntegerNumbersObj_ensure t, Bool.and_self]
end

/-! ### Claim C10 -/

/-- C10, counterexample: the claim asserts that non-numeric strings are
returned unchanged, but `ensureIntegerValues` rewrites the non-numeric
string `"42abc"` (its value as a number, `Number("42abc")`, is `NaN`) to
`"42"`, because `parseFloat` parses the numeric prefix `42` and
`(42).toString() !== "42abc"`. -/
theorem c10_ensureIntegerValues_counterexample :
    ensureIntegerValues (JSVal.str "42abc") = JSVal.str "42" ∧
      JSVal.str "42" ≠ JSVal.str "42abc" := by
  constructor
  · rfl
  · decide

/-- C10, amended: `ensureIntegerValues` is idempotent, every number in
its output (at any nesting depth) is an integer, and `null`, `undefined`
and strings in which `parseFloat` finds no number are returned
unchanged.  (Strings with a parseable numeric prefix, such as `"42abc"`,
are rewritten to the rounded prefix whenever the parsed number's
canonical rendering differs from the string itself.) -/
theorem c10_ensureIntegerValues_amended :
    (∀ v : JSVal, ensureIntegerValues (ensureIntegerValues v) = ensureIntegerValues v) ∧
    (∀ v : JSVal, allIntegerNumbers (ensureIntegerValues v) = true) ∧
    (∀ s : String, parseFloatQ s.toList = none →
      ensureIntegerValues (JSVal.str s) = JSVal.str s) ∧
    ensureIntegerValues JSVal.null = JSVal.null ∧
    ensureIntegerValues JSVal.undefined = JSVal.undefined :=
  ⟨ensureIntegerValues_idem, allIntegerNumbers_ensure,
    fun _ h => ensureIntegerValues_str_of_none h, rfl, rfl⟩

/-- C10, witness: the amended theorem applied at a concrete nested value
and at the concrete non-numeric string `"abc"`. -/
theorem c10_ensureIntegerValues_amended_witness :
    ensureIntegerValues (ensureIntegerValues
        (JSVal.arr (JSArr.cons (JSVal.num (7/2))
          (JSArr.cons (JSVal.obj (JSObj.cons "kcal" (JSVal.str "3.50") JSObj.nil))
            JSArr.nil)))) =
      ensureIntegerValues
        (JSVal.arr (JSArr.cons (JSVal.num (7/2))
          (JSArr.cons (JSVal.obj (JSObj.cons "kcal" (JSVal.str "3.50") JSObj.nil))
            JSArr.nil))) ∧
    allIntegerNumbers (ensureIntegerValues
        (JSVal.arr (JSArr.cons (JSVal.num (7/2))
          (JSArr.cons (JSVal.obj (JSObj.cons "kcal" (JSVal.str "3.50") JSObj.nil))
            JSArr.nil)))) = true ∧
    parseFloatQ "abc".toList = none ∧
    ensureIntegerValues (JSVal.str "abc") = JSVal.str "abc" :=
  ⟨c10_ensureIntegerValues_amended.1 _,
    c10_ensureIntegerValues_amended.2.1 _,
    rfl,
    c10_ensureIntegerValues_amended.2.2.1 "abc" rfl⟩

/-! ## `JSON.parse`

Recursive-descent parser for the strict JSON grammar (the whitespace set
is space/tab/LF/CR; numbers follow the JSON numeral grammar; strings
support the standard escapes).  Duplicate object keys keep the first
position and the last value, as in JS.  Fuel drives the recursion; the
top-level wrapper supplies `length + 1`, which dominates the nesting
depth. -/

def isJsonWs (c : Char) : Bool :=
  c.toNat = 32 || c.toNat = 9 || c.toNat = 10 || c.toNat = 13

def skipJsonWs (l : List Char) : List Char := l.dropWhile isJsonWs

def hexVal (c : Char) : Option Nat :=
  if 48 ≤ c.toNat ∧ c.toNat ≤ 57 then some (c.toNat - 48)
  else if 97 ≤ c.toNat ∧ c.toNat ≤ 102 then some (c.toNat - 87)
  else if 65 ≤ c.toNat ∧ c.toNat ≤ 70 then some (c.toNat - 55)
  else none

/-- Body of a JSON string after the opening quote; returns the decoded
characters and the input after the closing quote.  (A `\u` escape for a
lone UTF-16 surrogate has no `Char` counterpart and decodes through
`Char.ofNat`'s default; no string in this development uses one.) -/
def pStringBody : List Char → List Char → Option (List Char × List Char)
  | acc, '"' :: rest => some (acc.reverse, rest)
  | acc, '\\' :: e :: rest =>
      if e = '"' then pStringBody ('"' :: acc) rest
      else if e = '\\' then pStringBody ('\\' :: acc) rest
      else if e = '/' then pStringBody ('/' :: acc) rest
      else if e = 'b' then pStringBody ('\x08' :: acc) rest
      else if e = 'f' then pStringBody ('\x0c' :: acc) rest
      else if e = 'n' then pStringBody ('\n' :: acc) rest
      else if e = 'r' then pStringBody ('\r' :: acc) rest
      else if e = 't' then pStringBody ('\t' :: acc) rest
      else if e = 'u' then
        match rest with
        | a :: b :: c :: d :: rest2 =>
            match hexVal a, hexVal b, hexVal c, hexVal d with
            | some ha, some hb, some hc, some hd =>
                pStringBody (Char.ofNat (((ha * 16 + hb) * 16 + hc) * 16 + hd) :: acc) rest2
            | _, _, _, _ => none
        | _ => none
      else none
  | acc, c :: rest => if c.toNat < 32 then none else pStringBody (c :: acc) rest
  | _, [] => none

/-- JSON numeral after an optional leading `-` has been noted: strict
`(0|[1-9]\d*)(\.\d+)?([eE][+-]?\d+)?`. -/
def pNumberTail (neg : Bool) (l : List Char) : Option (ℚ × List Char) :=
  match l with
  | c :: rest =>
      if c = '0' ∨ isDigitChar c = true then
        let ip := if c = '0' then ['0'] else c :: rest.takeWhile isDigitChar
        let r1 := if c = '0' then rest else rest.dropWhile isDigitChar
        let (fp, r2) :=
          match r1 with
          | '.' :: t =>
              let fs := t.takeWhile isDigitChar
              if fs.isEmpty then ([], '.' :: t) else (fs, t.dropWhile isDigitChar)
          | _ => ([], r1)
        match r1 with
        | '.' :: t =>
            if (t.takeWhile isDigitChar).isEmpty then none
            else pNumberExp neg ip fp r2
        | _ => pNumberExp neg ip fp r2
      else none
  | [] => none
where
  pNumberExp (neg : Bool) (ip fp r2 : List Char) : Option (ℚ × List Char) :=
    match r2 with
    | c :: t =>
        if c = 'e' ∨ c = 'E' then
          let (eneg, t1) := parseSign t
          let es := t1.takeWhile isDigitChar
          if es.isEmpty then none
          else
            some (decValue neg ip fp
              (if eneg then -(digitsValue es : ℤ) else (digitsValue es : ℤ)),
              t1.dropWhile isDigitChar)
        else some (decValue neg ip fp 0, r2)
    | [] => some (decValue neg ip fp 0, [])

/-- Replace the value of an existing key (keeping its position) or
append a new binding, as JS object literals built by `JSON.parse` do. -/
def JSObj.insertField : JSObj → String → JSVal → JSObj
  | .nil, k, v => .cons k v .nil
  | .cons k0 v0 t, k, v =>
      if k0 = k then .cons k0 v t else .cons k0 v0 (JSObj.insertField t k v)

/-- Reverse-append for the accumulator used by `pElems`. -/
def jsArrRevAppend : JSArr → JSArr → JSArr
  | .nil, acc => acc
  | .cons h t, acc => jsArrRevAppend t (.cons h acc)

mutual
def pValue : Nat → List Char → Option (JSVal × List Char)
  | 0, _ => none
  | fuel + 1, l =>
      match skipJsonWs l with
      | [] => none
      | c :: rest =>
          if c = '{' then
            match skipJsonWs rest with
            | '}' :: r2 => some (.obj .nil, r2)
            | _ => pMembers fuel rest .nil
          else if c = '[' then
            match skipJsonWs rest with
            | ']' :: r2 => some (.arr .nil, r2)
            | _ => pElems fuel rest .nil
          else if c = '"' then
            match pStringBody [] rest with
            | some (cs, r2) => some (.str (String.mk cs), r2)
            | none => none
          else if c = 't' then
            match rest with
            | 'r' :: 'u' :: 'e' :: r2 => some (.bool true, r2)
            | _ => none
          else if c = 'f' then
            match rest with
            | 'a' :: 'l' :: 's' :: 'e' :: r2 => some (.bool false, r2)
            | _ => none
          else if c = 'n' then
            match rest with
            | 'u' :: 'l' :: 'l' :: r2 => some (.null, r2)
            | _ => none
          else if c = '-' then
            match pNumberTail true rest with
            | some (q, r2) => some (.num q, r2)
            | none => none
          else
            match pNumberTail false (c :: rest) with
            | some (q, r2) => some (.num q, r2)
            | none => none

/-- Members of an object, positioned just after `{` or after a `,`. -/
def pMembers : Nat → List Char → JSObj → Option (JSVal × List Char)
  | 0, _, _ => none
  | fuel + 1, l, acc =>
      match skipJsonWs l with
      | '"' :: rest =>
          match pStringBody [] rest with
          | some (key, r2) =>
              match skipJsonWs r2 with
              | ':' :: r3 =>
                  match pValue fuel r3 with
                  | some (v, r4) =>
                      let acc2 := acc.insertField (String.mk key) v
                      match skipJsonWs r4 with
                      | ',' :: r5 => pMembers fuel r5 acc2
                      | '}' :: r5 => some (.obj acc2, r5)
                      | _ => none
                  | none => none
              | _ => none
          | none => none
      | _ => none

/-- Elements of an array, positioned just after `[` or after a `,`. -/
def pElems : Nat → List Char → JSArr → Option (JSVal × List Char)
  | 0, _, _ => none
  | fuel + 1, l, acc =>
      match pValue fuel l with
      | some (v, r1) =>
          match skipJsonWs r1 with
          | ',' :: r2 => pElems fuel r2 (JSArr.cons v acc)
          | ']' :: r2 => some (.arr (jsArrRevAppend (JSArr.cons v acc) .nil), r2)
          | _ => none
      | none => none
end

/-- `JSON.parse`, `none` for a `SyntaxError`; requires the whole input
to be consumed apart from trailing whitespace. -/
def jsonParse (s : String) : Option JSVal :=
  match pValue (s.length + 1) s.toList with
  | some (v, rest) => if (skipJsonWs rest).isEmpty then some v else none
  | none => none

/-! ## The regex-based JSON repair (venice.ts, stage-2 parse)

Each `String.replace(regex, …)` with a global regex is embedded as a
scanner over `List Char`.  The scanners reproduce the exact JS
semantics: matches are found leftmost, are non-overlapping (scanning
resumes immediately after a match, never inside one or inside its
replacement), and on a failed match attempt the scan advances one
character. -/

/-- Step 1: `replace(/\t/g, " ")`. -/
def replaceTabs (l : List Char) : List Char :=
  l.map (fun c => if c = '\t' then ' ' else c)

/-- Generic single-pass scanner: at each position the step function
returns the characters to emit and the strictly shorter remainder to
continue from (either the tail — a one-character advance after a failed
match attempt — or the input after a successful match).  Fuel makes the
recursion structural so that the kernel can evaluate concrete runs; the
wrapper supplies `length + 1`, which every step-contract below keeps
sufficient. -/
def scanGo (step : List Char → List Char × List Char) : Nat → List Char → List Char
  | 0, _ => []
  | _ + 1, [] => []
  | fuel + 1, c :: rest => (step (c :: rest)).1 ++ scanGo step fuel (step (c :: rest)).2

/-- A step function is admissible when it always consumes at least one
character. -/
def StepShrinks (step : List Char → List Char × List Char) : Prop :=
  ∀ c rest, ((step (c :: rest)).2).length ≤ rest.length

theorem scanGo_congr {step : List Char → List Char × List Char}
    (hstep : StepShrinks step) :
    ∀ f1 f2 l, l.length < f1 → l.length < f2 → scanGo step f1 l = scanGo step f2 l := by
  intro f1
  induction f1 with
  | zero =>
      intro f2 l h1
      exact absurd h1 (Nat.not_lt_zero _)
  | succ a ih =>
      intro f2 l h1 h2
      cases f2 with
      | zero => exact absurd h2 (Nat.not_lt_zero _)
      | succ b =>
          cases l with
          | nil => rfl
          | cons c rest =>
              show (step (c :: rest)).1 ++ scanGo step a (step (c :: rest)).2 =
                (step (c :: rest)).1 ++ scanGo step b (step (c :: rest)).2
              simp only [List.length_cons] at h1 h2
              exact congrArg _ (ih b _
                (lt_of_le_of_lt (hstep c rest) (by omega))
                (lt_of_le_of_lt (hstep c rest) (by omega)))

/-- Run a scanner over the whole input. -/
def scanRun (step : List Char → List Char × List Char) (l : List Char) : List Char :=
  scanGo step (l.length + 1) l

theorem scanRun_nil (step : List Char → List Char × List Char) :
    scanRun step [] = [] := rfl

/-- The defining equation of a scanner run on a nonempty input. -/
theorem scanRun_cons {step : List Char → List Char × List Char}
    (hstep : StepShrinks step) (c : Char) (rest : List Char) :
    scanRun step (c :: rest) =
      (step (c :: rest)).1 ++ scanRun step ((step (c :: rest)).2) := by
  show (step (c :: rest)).1 ++ scanGo step ((c :: rest).length) (step (c :: rest)).2 = _
  refine congrArg _ (scanGo_congr hstep _ _ _ ?_ ?_)
  · simp only [List.length_cons]
    exact Nat.lt_succ_of_le (hstep c rest)
  · exact Nat.lt_succ_self _

/-- Step 2: `replace(/(\d+)\.\d{50,}/g, "$1")` — drop fractions of 50 or
more digits. -/
def stepTruncLong : List Char → List Char × List Char
  | [] => ([], [])
  | c :: rest =>
      if isDigitChar c then
        match (c :: rest).dropWhile isDigitChar with
        | '.' :: r2 =>
            if 50 ≤ (r2.takeWhile isDigitChar).length then
              ((c :: rest).takeWhile isDigitChar, r2.dropWhile isDigitChar)
            else ([c], rest)
        | _ => ([c], rest)
      else ([c], rest)

def truncLongDecimals (l : List Char) : List Char := scanRun stepTruncLong l

/-- Step 3: `replace(/:\s*(\d+)\.\d+/g, ": $1")` — truncate the decimals
of numeric field values. -/
def stepFixDecimals : List Char → List Char × List Char
  | [] => ([], [])
  | c :: rest =>
      if c = ':' then
        match (rest.dropWhile isWsChar).dropWhile isDigitChar with
        | '.' :: r2 =>
            if ((rest.dropWhile isWsChar).takeWhile isDigitChar).isEmpty then ([c], rest)
            else if (r2.takeWhile isDigitChar).isEmpty then ([c], rest)
            else
              (':' :: ' ' :: (rest.dropWhile isWsChar).takeWhile isDigitChar,
                r2.dropWhile isDigitChar)
        | _ => ([c], rest)
      else ([c], rest)

def fixDecimals (l : List Char) : List Char := scanRun stepFixDecimals l

/-- Step 4: `replace(/,(\s*[}\]])/g, "$1")` — drop a comma whose next
non-whitespace character closes a brace or bracket. -/
def stepRmTrailingCommas : List Char → List Char × List Char
  | [] => ([], [])
  | c :: rest =>
      if c = ',' then
        match rest.dropWhile isWsChar with
        | d :: r2 =>
            if d = '}' ∨ d = ']' then (rest.takeWhile isWsChar ++ [d], r2)
            else ([','], rest)
        | [] => ([','], rest)
      else ([c], rest)

def rmTrailingCommas (l : List Char) : List Char := scanRun stepRmTrailingCommas l

/-- Step 5a: `replace(/([{,]\s*)(\w+):/g, '$1"$2":')` — quote unquoted
object keys. -/
def stepQuoteKeys : List Char → List Char × List Char
  | [] => ([], [])
  | c :: rest =>
      if c = '{' ∨ c = ',' then
        match (rest.dropWhile isWsChar).dropWhile isWordChar with
        | ':' :: r2 =>
            if ((rest.dropWhile isWsChar).takeWhile isWordChar).isEmpty then ([c], rest)
            else
              (c :: rest.takeWhile isWsChar ++
                '"' :: (rest.dropWhile isWsChar).takeWhile isWordChar ++ ['"', ':'], r2)
        | _ => ([c], rest)
      else ([c], rest)

def quoteKeys (l : List Char) : List Char := scanRun stepQuoteKeys l

/-- Character allowed inside the value token of step 5b: `[^,}\]\s]`. -/
def isTokenChar (c : Char) : Bool :=
  !(c == ',' || c == '}' || c == ']' || isWsChar c)

/-- Step 5b: `replace(/:\s*([^",{\[\s][^,}\]\s]*)\s*([,}\]])/g, ': "$1"$2')`
— quote a bare value token that runs up to a comma or closing
brace/bracket.  (This also wraps bare numbers, `true`, `false` and
`null` in quotes; see the C3/C4 analyses.) -/
def stepQuoteBare : List Char → List Char × List Char
  | [] => ([], [])
  | c :: rest =>
      if c = ':' then
        match rest.dropWhile isWsChar with
        | c0 :: r1 =>
            if c0 = '"' ∨ c0 = ',' ∨ c0 = '{' ∨ c0 = '[' ∨ isWsChar c0 = true then
              ([':'], rest)
            else
              match (r1.dropWhile isTokenChar).dropWhile isWsChar with
              | d :: r3 =>
                  if d = ',' ∨ d = '}' ∨ d = ']' then
                    (':' :: ' ' :: '"' :: c0 :: r1.takeWhile isTokenChar ++ ['"', d], r3)
                  else ([':'], rest)
              | [] => ([':'], rest)
        | [] => ([':'], rest)
      else ([c], rest)

def quoteBareValues (l : List Char) : List Char := scanRun stepQuoteBare l

/-- The whole cleanup chain of `calculateNutritionFromDescription`, in
source order. -/
def cleanupJson (l : List Char) : List Char :=
  quoteBareValues (quoteKeys (rmTrailingCommas (fixDecimals
    (truncLongDecimals (replaceTabs l)))))

/-! ### `content.match(/\{[\s\S]*\}/)` and the `"title"` fallback -/

/-- Input after the first `{`, when one exists. -/
def afterFirstBrace : List Char → Option (List Char)
  | [] => none
  | c :: rest => if c = '{' then some rest else afterFirstBrace rest

/-- Index of the last `}` in the list. -/
def lastCloseIdx (l : List Char) : Option Nat :=
  match l.reverse.findIdx? (fun c => c == '}') with
  | some k => some (l.length - 1 - k)
  | none => none

/-- `s.match(/\{[\s\S]*\}/)`: from the first `{` through the last `}`
after it (the leftmost-greedy match), `none` when there is no match. -/
def braceSlice (s : List Char) : Option (List Char) :=
  match afterFirstBrace s with
  | some tail =>
      match lastCloseIdx tail with
      | some j => some ('{' :: tail.take (j + 1))
      | none => none
  | none => none

/-- `jsonMatch ? jsonMatch[0] : content`. -/
def extractJsonCandidate (content : List Char) : List Char :=
  (braceSlice content).getD content

def titleTok : List Char := ['"', 't', 'i', 't', 'l', 'e', '"']

/-- Position of the last `}` preceded (anywhere earlier) by a complete
`"title"` occurrence. -/
def lastTitledCloseGo : List Char → Nat → Bool → Option Nat → Option Nat
  | [], _, _, best => best
  | c :: rest, pos, seen, best =>
      lastTitledCloseGo rest (pos + 1) (seen || titleTok.isPrefixOf (c :: rest))
        (if c = '}' ∧ seen = true then some pos else best)

def lastTitledClose (l : List Char) : Option Nat :=
  lastTitledCloseGo l 0 false none

/-- `jsonStr.match(/\{[\s\S]*"title"[\s\S]*\}/)`: leftmost `{` followed
somewhere by `"title"` and later by `}`; greedy, so the match ends at
the last eligible `}`. -/
def coreMatch : List Char → Option (List Char)
  | [] => none
  | c :: rest =>
      if c = '{' then
        match lastTitledClose rest with
        | some j => some ('{' :: rest.take (j + 1))
        | none => coreMatch rest
      else coreMatch rest

/-! ## `extractTextFromResponse` (venice.ts, lines 168-216) -/

def jsarrToList : JSArr → List JSVal
  | .nil => []
  | .cons h t => h :: jsarrToList t

/-- `data?.choices?.[0]?.message?.content`. -/
def choiceContent (data : JSVal) : JSVal :=
  getField (getField (jsIndex (getField data "choices") 0) "message") "content"

/-- The callback of the `choiceContent.map(...)` over array content. -/
def contentItemText (item : JSVal) : JSVal :=
  match item with
  | .str s => .str s
  | _ =>
      if truthy (getField item "text") then getField item "text"
      else if getField item "type" = JSVal.str "output_text" then getField item "text"
      else if getField item "type" = JSVal.str "text" then getField item "text"
      else .str ""

/-- `.filter(Boolean).join(" ")`. -/
def joinTruthySpace (vs : List JSVal) : String :=
  String.intercalate " " ((vs.filter truthy).map jsToString)

/-- `child?.text ?? ""` inside the `output` branch. -/
def childText (child : JSVal) : JSVal := jsNullish (getField child "text") (.str "")

/-- The per-item extraction of the `output`/`response.output` branch. -/
def outputItemText (item : JSVal) : JSVal :=
  match getField item "content" with
  | .str s => .str s
  | .arr cs => .str (joinTruthySpace ((jsarrToList cs).map childText))
  | _ => .str ""

def extractFromOutput (data : JSVal) : Option String :=
  match jsNullish (getField data "output") (getField (getField data "response") "output") with
  | .arr xs =>
      let c := (joinTruthySpace ((jsarrToList xs).map outputItemText)).trim
      if c ≠ "" then some c else none
  | _ => none

def extractAfterChoices (data : JSVal) : Option String :=
  match getField data "output_text" with
  | .arr xs =>
      let c := (String.intercalate "\n" ((jsarrToList xs).map jsElemString)).trim
      if c ≠ "" then some c else extractFromOutput data
  | _ => extractFromOutput data

/-- venice.ts `extractTextFromResponse`: the string content of
`choices[0].message.content`, or the non-empty joined text of its array
form, or the joined `output_text`, or the joined `output` items;
`none` (`undefined`) when none of these yields text. -/
def extractTextFromResponse (data : JSVal) : Option String :=
  match choiceContent data with
  | .str s => some s
  | .arr xs =>
      let combined := (joinTruthySpace ((jsarrToList xs).map contentItemText)).trim
      if combined ≠ "" then some combined else extractAfterChoices data
  | _ => extractAfterChoices data

/-! ## The two-stage Venice pipeline (venice.ts)

`fetch` is an oracle in the environment: `visionResponse` answers the
stage-1 request (determined by the processed image and the optional user
hint), `textResponse` answers the stage-2 request (determined by the
food description interpolated into the prompt, the language of the
prompts, and whether a `response_format` JSON schema is attached).
An `Except.error` is a thrown exception carrying `error.message`. -/

structure ProcessedImage where
  dataUrl : String
  base64 : String
  mediaType : String

inductive Language : Type where
  | english
  | french
deriving DecidableEq

structure AnalyzeImageOptions where
  userDishDescription : Option String := none
  language : Option Language := none

structure VeniceEnv where
  /-- Outcome of `resizeImageToJpeg` (canvas work, an oracle here). -/
  processedImage : Except String ProcessedImage
  /-- Outcome of `callVeniceAPI` for the stage-1 vision request. -/
  visionResponse : ProcessedImage → Option String → Except String JSVal
  /-- Outcome of `callVeniceAPI` for the stage-2 text request. -/
  textResponse : String → Language → Bool → Except String JSVal
  /-- `(Date.now() - startTime) / 1000` as observed by the adapter. -/
  elapsedSeconds : ℚ

/-- Stage 1 (`identifyFoodFromImage`): call the vision model, then
require extractable non-empty text (`if (!content) throw ...`). -/
def identifyFoodFromImage (env : VeniceEnv) (img : ProcessedImage)
    (userHint : Option String) : Except String String :=
  match env.visionResponse img userHint with
  | .error e => .error e
  | .ok data =>
      match extractTextFromResponse data with
      | some s =>
          if s = "" then .error "Vision model returned no food description"
          else .ok s
      | none => .error "Vision model returned no food description"

/-- ASCII lowercasing (`String.prototype.toLowerCase` on the ASCII error
messages this code inspects). -/
def lowerChar (c : Char) : Char :=
  if 65 ≤ c.toNat ∧ c.toNat ≤ 90 then Char.ofNat (c.toNat + 32) else c

def toLowerStr (s : String) : String := String.mk (s.toList.map lowerChar)

/-- Naive substring search, `String.prototype.includes`. -/
def containsSub (pat : List Char) : List Char → Bool
  | [] => pat.isEmpty
  | c :: rest => pat.isPrefixOf (c :: rest) || containsSub pat rest

def strIncludes (s pat : String) : Bool := containsSub pat.toList s.toList

/-- The retry condition of stage 2:
`message.includes("response_format") && message.includes("not supported")`
on the lowercased error message. -/
def schemaUnsupported (msg : String) : Bool :=
  strIncludes (toLowerStr msg) "response_format" &&
    strIncludes (toLowerStr msg) "not supported"

/-- The `try/catch` around the two `callVeniceAPI` calls of stage 2:
first with the JSON schema; on a schema-unsupported error retry exactly
once without it; any other error propagates.  Returns the response and
`usedSchema`. -/
def fetchNutritionData (env : VeniceEnv) (foodDescription : String)
    (language : Language) : Except String (JSVal × Bool) :=
  match env.textResponse foodDescription language true with
  | .ok data => .ok (data, true)
  | .error e =>
      if schemaUnsupported e then
        match env.textResponse foodDescription language false with
        | .ok data => .ok (data, false)
        | .error e2 => .error e2
      else .error e

def jsonParseChars (l : List Char) : Option JSVal :=
  match pValue (l.length + 1) l with
  | some (v, rest) => if (skipJsonWs rest).isEmpty then some v else none
  | none => none

def nutritionParseFailMsg : String :=
  "Failed to parse nutrition data. The model returned invalid JSON format."

/-- The parse-with-cleaning block of stage 2: extract the brace slice,
run the regex repair, `JSON.parse`; on failure try the `"title"` core
match; any parse failure surfaces as the fixed error message (the outer
`catch`). -/
def parseNutritionContent (content : String) : Except String JSVal :=
  let jsonStr := extractJsonCandidate content.toList
  let cleaned := cleanupJson jsonStr
  match jsonParseChars cleaned with
  | some v => .ok v
  | none =>
      match coreMatch cleaned with
      | some m =>
          match jsonParseChars m with
          | some v => .ok v
          | none => .error nutritionParseFailMsg
      | none => .error nutritionParseFailMsg

/-- Stage 2 (`calculateNutritionFromDescription`): fetch (with the
schema fallback), extract the text, and parse it with cleaning.  The
returned value is whatever `JSON.parse` produced — the code performs no
shape validation (see C4). -/
def calculateNutritionFromDescription (env : VeniceEnv)
    (foodDescription : String) (language : Language) : Except String JSVal :=
  match fetchNutritionData env foodDescription language with
  | .error e => .error e
  | .ok (data, _) =>
      match extractTextFromResponse data with
      | some content =>
          if content = "" then .error "Nutrition calculation returned no content"
          else parseNutritionContent content
      | none => .error "Nutrition calculation returned no content"

/-- Main export `analyzeImageWithVenice`: resize, stage 1, stage 2. -/
def analyzeImageWithVenice (env : VeniceEnv) (opts : AnalyzeImageOptions) :
    Except String JSVal :=
  let language := opts.language.getD .english
  match env.processedImage with
  | .error e => .error e
  | .ok img =>
      match identifyFoodFromImage env img (opts.userDishDescription.map String.trim) with
      | .error e => .error e
      | .ok foodDescription =>
          calculateNutritionFromDescription env foodDescription language

/-! ### Claim C1 -/

/-- C1: `analyzeImageWithVenice` runs the two stages in order: when the
vision stage succeeds, the whole call equals the text-model stage
applied to the exact text the vision stage returned (and the options'
language); when the vision stage throws, its error is the result and
the text-model stage is never invoked — the outcome is independent of
the text-model oracle. -/
theorem c1_two_stage_pipeline (env : VeniceEnv) (opts : AnalyzeImageOptions)
    (img : ProcessedImage) (himg : env.processedImage = .ok img) :
    (∀ desc : String,
      identifyFoodFromImage env img (opts.userDishDescription.map String.trim) = .ok desc →
        analyzeImageWithVenice env opts =
          calculateNutritionFromDescription env desc (opts.language.getD .english)) ∧
    (∀ e : String,
      identifyFoodFromImage env img (opts.userDishDescription.map String.trim) = .error e →
        ∀ tr : String → Language → Bool → Except String JSVal,
          analyzeImageWithVenice { env with textResponse := tr } opts = .error e) := by
  constructor
  · intro desc hid
    simp only [analyzeImageWithVenice, himg, hid]
  · intro e hid tr
    have hid2 : identifyFoodFromImage
        { processedImage := Except.ok img, visionResponse := env.visionResponse,
          textResponse := tr, elapsedSeconds := env.elapsedSeconds } img
        (opts.userDishDescription.map String.trim) = .error e := hid
    simp only [analyzeImageWithVenice, himg, hid2]

/-- A stage-1 response whose `choices[0].message.content` is a plain
string. -/
def mkChoicesResponse (content : JSVal) : JSVal :=
  JSVal.obj (JSObj.cons "choices"
    (JSVal.arr (JSArr.cons
      (JSVal.obj (JSObj.cons "message"
        (JSVal.obj (JSObj.cons "content" content JSObj.nil)) JSObj.nil))
      JSArr.nil)) JSObj.nil)

def sampleImage : ProcessedImage :=
  { dataUrl := "data:image/jpeg;base64,QUJD", base64 := "QUJD", mediaType := "image/jpeg" }

def c1EnvOk : VeniceEnv where
  processedImage := .ok sampleImage
  visionResponse := fun _ _ => .ok (mkChoicesResponse (JSVal.str "a margherita pizza"))
  textResponse := fun _ _ _ => .ok (mkChoicesResponse (JSVal.str "\x7b\"note\": \"ok\"\x7d"))
  elapsedSeconds := 0

def c1EnvVisionFail : VeniceEnv where
  processedImage := .ok sampleImage
  visionResponse := fun _ _ => .error "Venice API error (500): boom"
  textResponse := fun _ _ _ => .ok (mkChoicesResponse (JSVal.str "\x7b\"note\": \"ok\"\x7d"))
  elapsedSeconds := 0

/-- C1 witness: the theorem applied to concrete environments in which
the vision stage succeeds with the text `"a margherita pizza"`, resp.
throws. -/
theorem c1_two_stage_pipeline_witness :
    analyzeImageWithVenice c1EnvOk {} =
      calculateNutritionFromDescription c1EnvOk "a margherita pizza" Language.english ∧
    analyzeImageWithVenice
        { c1EnvVisionFail with textResponse := fun _ _ _ => .ok (JSVal.str "never used") } {} =
      .error "Venice API error (500): boom" :=
  ⟨(c1_two_stage_pipeline c1EnvOk {} sampleImage rfl).1 "a margherita pizza" rfl,
    (c1_two_stage_pipeline c1EnvVisionFail {} sampleImage rfl).2
      "Venice API error (500): boom" rfl (fun _ _ _ => .ok (JSVal.str "never used"))⟩

/-! ### Claim C2 -/

/-- C2: stage 2 first calls the API with the JSON-schema
`response_format`.  If that call succeeds there is no retry.  If it
fails and the lowercased message contains both `"response_format"` and
`"not supported"`, the call is retried exactly once without the schema
and the overall outcome is that second call's outcome.  Any other error
propagates unchanged with no retry. -/
theorem c2_schema_retry (env : VeniceEnv) (d : String) (l : Language) :
    (∀ v, env.textResponse d l true = .ok v →
      fetchNutritionData env d l = .ok (v, true)) ∧
    (∀ e, env.textResponse d l true = .error e → schemaUnsupported e = true →
      fetchNutritionData env d l =
        (match env.textResponse d l false with
         | .ok v => .ok (v, false)
         | .error e2 => .error e2)) ∧
    (∀ e, env.textResponse d l true = .error e → schemaUnsupported e = false →
      fetchNutritionData env d l = .error e) := by
  refine ⟨?_, ?_, ?_⟩
  · intro v hv
    simp only [fetchNutritionData, hv]
  · intro e he hcond
    simp only [fetchNutritionData, he, hcond, if_true]
  · intro e he hcond
    simp only [fetchNutritionData, he, hcond, Bool.false_eq_true, if_false]

def c2EnvRetry : VeniceEnv where
  processedImage := .error "unused"
  visionResponse := fun _ _ => .error "unused"
  textResponse := fun _ _ useSchema =>
    if useSchema then
      .error "Venice API error (400): response_format is NOT SUPPORTED for this model"
    else .ok (JSVal.str "second call answer")
  elapsedSeconds := 0

def c2EnvOther : VeniceEnv where
  processedImage := .error "unused"
  visionResponse := fun _ _ => .error "unused"
  textResponse := fun _ _ _ => .error "Request timed out. Please check your connection and try again."
  elapsedSeconds := 0

/-- C2 witness: the theorem applied at a schema-unsupported error (the
retry happens and its result is returned) and at an unrelated error
(propagated unchanged). -/
theorem c2_schema_retry_witness :
    schemaUnsupported
        "Venice API error (400): response_format is NOT SUPPORTED for this model" = true ∧
    fetchNutritionData c2EnvRetry "pasta" Language.english =
      .ok (JSVal.str "second call answer", false) ∧
    schemaUnsupported
        "Request timed out. Please check your connection and try again." = false ∧
    fetchNutritionData c2EnvOther "pasta" Language.english =
      .error "Request timed out. Please check your connection and try again." := by
  refine ⟨by decide, ?_, by decide, ?_⟩
  · exact (c2_schema_retry c2EnvRetry "pasta" Language.english).2.1 _ rfl (by decide)
  · exact (c2_schema_retry c2EnvOther "pasta" Language.english).2.2 _ rfl (by decide)

/-! ### Claim C6 -/

/-- C6: given a stage-1 API response, `identifyFoodFromImage` returns
exactly the non-empty text `extractTextFromResponse` extracts from it,
and throws `"Vision model returned no food description"` precisely when
no such non-empty text can be extracted (`undefined` or `""`, the two
falsy cases of `if (!content)`). -/
theorem c6_vision_text (env : VeniceEnv) (img : ProcessedImage)
    (hint : Option String) (data : JSVal)
    (h : env.visionResponse img hint = .ok data) :
    (∀ s, extractTextFromResponse data = some s → s ≠ "" →
      identifyFoodFromImage env img hint = .ok s) ∧
    (identifyFoodFromImage env img hint =
        .error "Vision model returned no food description" ↔
      extractTextFromResponse data = none ∨ extractTextFromResponse data = some "") := by
  constructor
  · intro s hs hne
    simp only [identifyFoodFromImage, h, hs, hne, if_false]
  · constructor
    · intro hthrow
      cases hx : extractTextFromResponse data with
      | none => exact Or.inl rfl
      | some s =>
          by_cases hse : s = ""
          · subst hse
            exact Or.inr rfl
          · simp only [identifyFoodFromImage, h, hx, hse, if_false] at hthrow
            cases hthrow
    · intro hor
      rcases hor with hx | hx
      · simp only [identifyFoodFromImage, h, hx]
      · simp only [identifyFoodFromImage, h, hx, eq_self_iff_true, if_true]

def c6EnvText : VeniceEnv where
  processedImage := .ok sampleImage
  visionResponse := fun _ _ => .ok (mkChoicesResponse (JSVal.str "grilled salmon with rice"))
  textResponse := fun _ _ _ => .error "unused"
  elapsedSeconds := 0

def c6EnvEmpty : VeniceEnv where
  processedImage := .ok sampleImage
  visionResponse := fun _ _ => .ok (mkChoicesResponse (JSVal.str ""))
  textResponse := fun _ _ _ => .error "unused"
  elapsedSeconds := 0

/-- C6 witness: the theorem applied to a response carrying the text
`"grilled salmon with rice"` (returned as-is) and to a response whose
content is the empty string (the error is thrown). -/
theorem c6_vision_text_witness :
    identifyFoodFromImage c6EnvText sampleImage none = .ok "grilled salmon with rice" ∧
    identifyFoodFromImage c6EnvEmpty sampleImage none =
      .error "Vision model returned no food description" :=
  ⟨(c6_vision_text c6EnvText sampleImage none _ rfl).1 _ rfl (by decide),
    (c6_vision_text c6EnvEmpty sampleImage none _ rfl).2.mpr (Or.inr rfl)⟩

/-! ### Claim C4 -/

def isNumV : JSVal → Bool
  | .num _ => true
  | _ => false

def isStrV : JSVal → Bool
  | .str _ => true
  | _ => false

/-- Modelled from the spec's words for the claimed output shape: a
structured nutrition breakdown whose required `NutritionSummary` fields
are present — `title`, `confidence`, `servingDescription`,
`totalCalories` and `macros` with `protein`/`carbs`/`fat` each carrying
`grams` and `calories` (the other listed parts — micronutrients, items,
notes/cautions — are optional in the type, so they are not required
here; requiring them would only make the claim fail on more inputs). -/
def specRequiredNutritionShape (v : JSVal) : Bool :=
  isStrV (getField v "title") && isNumV (getField v "confidence") &&
    isStrV (getField v "servingDescription") && isNumV (getField v "totalCalories") &&
    (isNumV (getField (getField (getField v "macros") "protein") "grams") &&
      isNumV (getField (getField (getField v "macros") "protein") "calories")) &&
    (isNumV (getField (getField (getField v "macros") "carbs") "grams") &&
      isNumV (getField (getField (getField v "macros") "carbs") "calories")) &&
    (isNumV (getField (getField (getField v "macros") "fat") "grams") &&
      isNumV (getField (getField (getField v "macros") "fat") "calories"))

def c4Env : VeniceEnv where
  processedImage := .error "unused"
  visionResponse := fun _ _ => .error "unused"
  textResponse := fun _ _ _ => .ok (mkChoicesResponse (JSVal.str "\x7b\"note\": \"hi\"\x7d"))
  elapsedSeconds := 0

/-- C4, counterexample: the model response `{"note": "hi"}` parses as
JSON, so stage 2 returns it successfully — but the returned object has
none of the required `NutritionSummary` fields.  The code never
validates the shape; it is only *requested* via the `response_format`
schema in the request. -/
theorem c4_shape_counterexample :
    calculateNutritionFromDescription c4Env "food" Language.english =
      .ok (JSVal.obj (JSObj.cons "note" (JSVal.str "hi") JSObj.nil)) ∧
    specRequiredNutritionShape
      (JSVal.obj (JSObj.cons "note" (JSVal.str "hi") JSObj.nil)) = false := by
  constructor
  · rfl
  · rfl

/-- C4, amended: every value successfully returned by stage 2 is exactly
the `JSON.parse` of the repaired response text, with no client-side
validation of the `NutritionSummary` shape; the shape is requested via
the JSON schema attached to the request but a parseable response of any
shape is returned as-is. -/
theorem c4_parse_passthrough (env : VeniceEnv) (d : String) (l : Language)
    (data : JSVal) (content : String) (v : JSVal)
    (h1 : env.textResponse d l true = .ok data)
    (h2 : extractTextFromResponse data = some content)
    (h3 : content ≠ "")
    (h4 : jsonParseChars (cleanupJson (extractJsonCandidate content.toList)) = some v) :
    calculateNutritionFromDescription env d l = .ok v := by
  have hf : fetchNutritionData env d l = .ok (data, true) := by
    simp only [fetchNutritionData, h1]
  simp only [calculateNutritionFromDescription, hf, h2, h3, if_false,
    parseNutritionContent, h4]

def c4EnvNum : VeniceEnv where
  processedImage := .error "unused"
  visionResponse := fun _ _ => .error "unused"
  textResponse := fun _ _ _ => .ok (mkChoicesResponse (JSVal.str "\x7b\"totalCalories\": 500\x7d"))
  elapsedSeconds := 0

/-- C4 witness: the amended theorem applied at a concrete response.
Note the returned value: the repair's step 5b quoted the numeric field,
so `totalCalories` comes back as the *string* `"500"`. -/
theorem c4_parse_passthrough_witness :
    calculateNutritionFromDescription c4EnvNum "food" Language.english =
      .ok (JSVal.obj (JSObj.cons "totalCalories" (JSVal.str "500") JSObj.nil)) :=
  c4_parse_passthrough c4EnvNum "food" Language.english
    (mkChoicesResponse (JSVal.str "\x7b\"totalCalories\": 500\x7d"))
    "\x7b\"totalCalories\": 500\x7d"
    (JSVal.obj (JSObj.cons "totalCalories" (JSVal.str "500") JSObj.nil))
    rfl rfl (by decide) rfl

/-! ## The multi-model layer (multi-model/api.ts adapter and
multi-model/comparison.ts) -/

def jsObjOfList : List (String × JSVal) → JSObj
  | [] => .nil
  | (k, v) :: t => .cons k v (jsObjOfList t)

def jsArrOfList : List JSVal → JSArr
  | [] => .nil
  | v :: t => .cons v (jsArrOfList t)

structure MultiModelResult where
  modelName : String
  displayName : String
  nutritionSummary : JSVal
  analysisTime : ℚ
  confidence : JSVal
  error : Option String := none

/-- `createFallbackNutritionSummary` (venice-adapter): the object
literal returned when the underlying analysis threw. -/
def createFallbackNutritionSummary (e : String) : JSVal :=
  .obj (jsObjOfList
    [("title", .str "Analysis Failed"),
     ("confidence", .num 0),
     ("servingDescription", .str "Unable to analyze"),
     ("totalCalories", .num 0),
     ("macros", .obj (jsObjOfList
       [("protein", .obj (jsObjOfList [("grams", .num 0), ("calories", .num 0)])),
        ("carbs", .obj (jsObjOfList
          [("grams", .num 0), ("calories", .num 0), ("fiber", .num 0), ("sugar", .num 0)])),
        ("fat", .obj (jsObjOfList
          [("grams", .num 0), ("calories", .num 0),
           ("saturated", .num 0), ("unsaturated", .num 0)]))])),
     ("micronutrients", .obj (jsObjOfList
       [("sodiumMg", .num 0), ("potassiumMg", .num 0), ("cholesterolMg", .num 0),
        ("calciumMg", .num 0), ("ironMg", .num 0), ("vitaminCMg", .num 0)])),
     ("items", .arr .nil),
     ("notes", .arr (jsArrOfList
       [.str ("Error: " ++ e),
        .str "Please try again or use a different model."])),
     ("analysis", .obj (jsObjOfList
       [("visualObservations", .arr .nil),
        ("portionEstimate", .str "Unable to estimate"),
        ("confidenceNarrative", .str ("Analysis failed: " ++ e)),
        ("cautions", .arr (jsArrOfList
          [.str "This analysis failed and should not be used."]))]))])

/-- `analyzeWithVenice` (venice-adapter): wraps the two-stage pipeline;
the `catch` turns every thrown error into a fallback result, so the
function is total — its promise always fulfills. -/
def analyzeWithVenice (env : VeniceEnv) (opts : AnalyzeImageOptions) : MultiModelResult :=
  match analyzeImageWithVenice env opts with
  | .ok nutritionSummary =>
      { modelName := "venice", displayName := "Venice AI",
        nutritionSummary := nutritionSummary,
        analysisTime := env.elapsedSeconds,
        confidence := jsOr (getField nutritionSummary "confidence") (.num 85),
        error := none }
  | .error e =>
      { modelName := "venice", displayName := "Venice AI",
        nutritionSummary := createFallbackNutritionSummary e,
        analysisTime := env.elapsedSeconds,
        confidence := .num 0,
        error := some e }

/-- Settlement state of a promise, as reported by `Promise.allSettled`. -/
inductive Settled (α : Type) : Type where
  | fulfilled (value : α)
  | rejected (reason : String)

def promiseAllSettled {α : Type} (ps : List (Except String α)) : List (Settled α) :=
  ps.map (fun o => match o with | .ok a => .fulfilled a | .error e => .rejected e)

/-- comparison.ts lines 26-28:
`results.filter(r => r.status === "fulfilled").map(r => r.value)`. -/
def settledValues {α : Type} : List (Settled α) → List α
  | [] => []
  | .fulfilled v :: t => v :: settledValues t
  | .rejected _ :: t => settledValues t

/-- `runAllModels`: `Promise.allSettled` over the single Venice promise
(which, `analyzeWithVenice` being total, always fulfills), then keep the
fulfilled values. -/
def runAllModels (env : VeniceEnv) (opts : AnalyzeImageOptions) : List MultiModelResult :=
  settledValues (promiseAllSettled [Except.ok (analyzeWithVenice env opts)])

/-! ### Claim C5 -/

/-- C5: the `allSettled`-then-filter combination returns exactly the
values of the fulfilled outcomes, in their original order, for every
combination of outcomes — rejected outcomes are simply absent and no
outcome combination can make it throw (the function is total); and
`runAllModels` is this combination applied to the single
`analyzeWithVenice` promise, so it returns exactly that result. -/
theorem c5_runAllModels_settled :
    (∀ (ps : List (Except String MultiModelResult)),
      settledValues (promiseAllSettled ps) =
        ps.filterMap (fun o => match o with | .ok a => some a | .error _ => none)) ∧
    (∀ (env : VeniceEnv) (opts : AnalyzeImageOptions),
      runAllModels env opts = [analyzeWithVenice env opts]) := by
  constructor
  · intro ps
    induction ps with
    | nil => rfl
    | cons h t ih =>
        cases h with
        | ok a => simp only [promiseAllSettled, List.map_cons, settledValues,
            List.filterMap_cons] at ih ⊢; rw [ih]
        | error e => simp only [promiseAllSettled, List.map_cons, settledValues,
            List.filterMap_cons] at ih ⊢; rw [ih]
  · intro env opts
    rfl

/-! ### Claim C8 -/

/-- C8: `analyzeWithVenice` never rejects — it is a total function into
`MultiModelResult` (every thrown error is caught) — and whenever the
underlying pipeline throws, the result carries confidence `0`, the
error's message, and the fallback summary: title `"Analysis Failed"`,
`totalCalories` 0, every macro `grams`/`calories` 0, and the caution
that the analysis should not be used. -/
theorem c8_adapter_fallback (env : VeniceEnv) (opts : AnalyzeImageOptions)
    (e : String) (h : analyzeImageWithVenice env opts = .error e) :
    (analyzeWithVenice env opts).confidence = JSVal.num 0 ∧
    (analyzeWithVenice env opts).error = some e ∧
    getField (analyzeWithVenice env opts).nutritionSummary "title" =
      JSVal.str "Analysis Failed" ∧
    getField (analyzeWithVenice env opts).nutritionSummary "totalCalories" = JSVal.num 0 ∧
    getField (getField (getField (analyzeWithVenice env opts).nutritionSummary
      "macros") "protein") "grams" = JSVal.num 0 ∧
    getField (getField (getField (analyzeWithVenice env opts).nutritionSummary
      "macros") "protein") "calories" = JSVal.num 0 ∧
    getField (getField (getField (analyzeWithVenice env opts).nutritionSummary
      "macros") "carbs") "grams" = JSVal.num 0 ∧
    getField (getField (getField (analyzeWithVenice env opts).nutritionSummary
      "macros") "carbs") "calories" = JSVal.num 0 ∧
    getField (getField (getField (analyzeWithVenice env opts).nutritionSummary
      "macros") "fat") "grams" = JSVal.num 0 ∧
    getField (getField (getField (analyzeWithVenice env opts).nutritionSummary
      "macros") "fat") "calories" = JSVal.num 0 ∧
    getField (getField (analyzeWithVenice env opts).nutritionSummary
      "analysis") "cautions" =
      JSVal.arr (JSArr.cons (JSVal.str "This analysis failed and should not be used.")
        JSArr.nil) := by
  simp only [analyzeWithVenice, h]
  and_intros <;> trivial

def c8EnvFail : VeniceEnv where
  processedImage := .error "Canvas 2D context unavailable"
  visionResponse := fun _ _ => .error "unused"
  textResponse := fun _ _ _ => .error "unused"
  elapsedSeconds := 2

/-- C8 witness: the theorem applied to an environment whose image
processing throws. -/
theorem c8_adapter_fallback_witness :
    (analyzeWithVenice c8EnvFail {}).confidence = JSVal.num 0 ∧
    (analyzeWithVenice c8EnvFail {}).error = some "Canvas 2D context unavailable" ∧
    getField (analyzeWithVenice c8EnvFail {}).nutritionSummary "title" =
      JSVal.str "Analysis Failed" :=
  ⟨(c8_adapter_fallback c8EnvFail {} "Canvas 2D context unavailable" rfl).1,
    (c8_adapter_fallback c8EnvFail {} "Canvas 2D context unavailable" rfl).2.1,
    (c8_adapter_fallback c8EnvFail {} "Canvas 2D context unavailable" rfl).2.2.1⟩

/-! ## The Netlify proxy function -/

structure NetlifyEvent where
  httpMethod : String
  /-- `body?: string | null` — `none` models both `null` and absent. -/
  body : Option String

structure UpstreamResponse where
  status : Nat
  /-- `res.headers.get("content-type")`, `none` for `null`. -/
  contentType : Option String
  bodyText : String
deriving DecidableEq

structure NetlifyEnv where
  event : NetlifyEvent
  /-- The `fetch` to the Venice endpoint plus `res.text()`, keyed by the
  forwarded body; `.error` is a thrown exception's message. -/
  veniceFetch : String → Except String UpstreamResponse

structure NetlifyResponse where
  statusCode : Nat
  headers : Option (List (String × String)) := none
  body : String
deriving DecidableEq

/-- `event.body || "{}"`. -/
def jsBodyOr (b : Option String) : String :=
  match b with
  | some s => if s = "" then "{}" else s
  | none => "{}"

/-- `x || "application/json"` on a nullable string header. -/
def jsStrOr (a : Option String) (b : String) : String :=
  match a with
  | some s => if s = "" then b else s
  | none => b

def proxyHeaders (contentType : Option String) : List (String × String) :=
  [("Content-Type", jsStrOr contentType "application/json"),
   ("Access-Control-Allow-Origin", "*"),
   ("Access-Control-Allow-Methods", "POST,OPTIONS")]

/-- The Netlify function `handler`. -/
def handler (env : NetlifyEnv) : NetlifyResponse :=
  if env.event.httpMethod ≠ "POST" then
    { statusCode := 405, body := "Method Not Allowed" }
  else
    match env.veniceFetch (jsBodyOr env.event.body) with
    | .ok res =>
        { statusCode := res.status,
          headers := some (proxyHeaders res.contentType),
          body := res.bodyText }
    | .error e => { statusCode := 500, body := e }

/-! ### Claim C7 -/

def c7GetEnv : NetlifyEnv where
  event := { httpMethod := "GET", body := some "ping" }
  veniceFetch := fun _ => .ok { status := 200, contentType := none, bodyText := "hello" }

def c7EmptyBodyEnv : NetlifyEnv where
  event := { httpMethod := "POST", body := none }
  veniceFetch := fun b => .ok { status := 200, contentType := none, bodyText := b }

/-- C7, counterexample: the handler is not a passthrough for every
incoming request.  A GET request is answered `405 Method Not Allowed`
without consulting the upstream (whose answer would have been
`200`/`"hello"`), and a POST with a null body has its body replaced by
`"{}"` before forwarding (the upstream oracle here echoes the forwarded
body, and the echo is `"{}"`, not the original null/empty body). -/
theorem c7_passthrough_counterexample :
    handler c7GetEnv =
      { statusCode := 405, headers := none, body := "Method Not Allowed" } ∧
    c7GetEnv.veniceFetch "ping" =
      .ok { status := 200, contentType := none, bodyText := "hello" } ∧
    (handler c7GetEnv).statusCode ≠ 200 ∧
    (handler c7GetEnv).body ≠ "hello" ∧
    (handler c7EmptyBodyEnv).body = "{}" := by
  refine ⟨rfl, rfl, by decide, by decide, rfl⟩

/-- C7, amended: only POST requests are forwarded.  For a POST the
handler sends `event.body` — with `"{}"` substituted when the body is
null or empty — to the Venice endpoint and returns the upstream status
code and body text unchanged, adding only content-type and CORS
headers; non-POST requests get `405 "Method Not Allowed"` with no
upstream call, and a fetch failure yields `500` with the error
message. -/
theorem c7_handler_behavior (env : NetlifyEnv) :
    (env.event.httpMethod ≠ "POST" →
      handler env = { statusCode := 405, headers := none, body := "Method Not Allowed" }) ∧
    (∀ u, env.event.httpMethod = "POST" →
      env.veniceFetch (jsBodyOr env.event.body) = .ok u →
      handler env =
        { statusCode := u.status, headers := some (proxyHeaders u.contentType),
          body := u.bodyText }) ∧
    (∀ e, env.event.httpMethod = "POST" →
      env.veniceFetch (jsBodyOr env.event.body) = .error e →
      handler env = { statusCode := 500, headers := none, body := e }) := by
  refine ⟨?_, ?_, ?_⟩
  · intro hm
    simp only [handler, hm, ne_eq, not_false_eq_true, if_true]
  · intro u hm hf
    simp only [handler, hm, ne_eq, not_true_eq_false, if_false, hf]
  · intro e hm hf
    simp only [handler, hm, ne_eq, not_true_eq_false, if_false, hf]

def c7PostEnv : NetlifyEnv where
  event := { httpMethod := "POST", body := some "\x7b\"model\": \"x\"\x7d" }
  veniceFetch := fun _ =>
    .ok { status := 201, contentType := some "application/json; charset=utf-8",
          bodyText := "\x7b\"ok\": true\x7d" }

def c7FailEnv : NetlifyEnv where
  event := { httpMethod := "POST", body := some "{}" }
  veniceFetch := fun _ => .error "fetch failed"

/-- C7 witness: the amended theorem applied to a non-POST request, a
successful POST, and a failing fetch. -/
theorem c7_handler_behavior_witness :
    handler c7GetEnv =
      { statusCode := 405, headers := none, body := "Method Not Allowed" } ∧
    handler c7PostEnv =
      { statusCode := 201,
        headers := some (proxyHeaders (some "application/json; charset=utf-8")),
        body := "\x7b\"ok\": true\x7d" } ∧
    handler c7FailEnv = { statusCode := 500, headers := none, body := "fetch failed" } :=
  ⟨(c7_handler_behavior c7GetEnv).1 (by decide),
    (c7_handler_behavior c7PostEnv).2.1 _ rfl rfl,
    (c7_handler_behavior c7FailEnv).2.2 _ rfl rfl⟩

/-! ## `transformVisionModelOutput` (venice.ts, lines 888-1612)

The single-stage path's output normalisation.  All extracted quantities
are integers (they come from `parseInt(..) || 0/1`); the `Math.round`
calls on products with decimal literals (`carbGrams * 0.15` etc.) are
modelled as exact rational products — the corresponding IEEE-754
products can differ from the exact value only by one ulp, which never
affects the claims settled here. -/

def isArrV : JSVal → Bool
  | .arr _ => true
  | _ => false

def isObjV : JSVal → Bool
  | .obj _ => true
  | _ => false

def isObjLike : JSVal → Bool
  | .obj _ => true
  | .arr _ => true
  | _ => false

/-- `a || b || c || …` (left-to-right first-truthy). -/
def jsOrChain : List JSVal → JSVal
  | [] => .undefined
  | [x] => x
  | x :: t => jsOr x (jsOrChain t)

def jsObjToList : JSObj → List (String × JSVal)
  | .nil => []
  | .cons k v t => (k, v) :: jsObjToList t

/-- `Object.entries(v)`: fields of objects, index/value pairs of arrays,
index/character pairs of strings, `[]` otherwise. -/
def entriesOf (v : JSVal) : List (String × JSVal) :=
  match v with
  | .obj fs => jsObjToList fs
  | .arr xs => (jsarrToList xs).enum.map
      (fun p => (String.mk (natToDigitChars p.1), p.2))
  | .str s => s.toList.enum.map
      (fun p => (String.mk (natToDigitChars p.1), JSVal.str (String.mk [p.2])))
  | _ => []

def containsStr (s pat : String) : Bool := strIncludes s pat

/-- `Math.round(z * (p/q))` for an integer `z` and a decimal literal
`p/q` (e.g. `0.15` is `15/100`). -/
def roundTimes (z p : ℤ) (q : ℕ) : ℤ := jsMathRound (mkRat (z * p) q)

def intStr (n : ℤ) : String := String.mk (intToChars n)

/-- `` `${n} serving${n > 1 ? 's' : ''}` ``. -/
def servingsStr (n : ℤ) : String :=
  intStr n ++ " serving" ++ (if 1 < n then "s" else "")

/-- `` `${n} piece${n > 1 ? 's' : ''}` `` (samosa items) and
`` `${n} ${n > 1 ? 'pieces' : 'piece'}` `` (ingredient items). -/
def piecesSuffixStr (n : ℤ) : String :=
  intStr n ++ " piece" ++ (if 1 < n then "s" else "")

def piecesWordStr (n : ℤ) : String :=
  intStr n ++ " " ++ (if 1 < n then "pieces" else "piece")

/-- The running extraction state: `calories`, `servings`,
`proteinGrams`, `carbGrams`, `fatGrams`, `fiberGrams`, `sugarGrams`,
`saturatedFatGrams`, `unsaturatedFatGrams`. -/
structure ExtractState where
  calories : ℤ
  servings : ℤ
  pg : ℤ
  cg : ℤ
  fg : ℤ
  fib : ℤ
  sug : ℤ
  sat : ℤ
  unsat : ℤ

/-- The alternative extraction loop over `Object.entries(nutrition)`
(venice.ts 999-1012). -/
def altExtract : List (String × JSVal) → ℤ → ℤ → ℤ → ℤ → ℤ × ℤ × ℤ × ℤ
  | [], c, p, cb, f => (c, p, cb, f)
  | (k, v) :: t, c, p, cb, f =>
      match parseIntJS v with
      | some n =>
          if 0 < n then
            let kl := toLowerStr k
            if containsStr kl "calorie" || containsStr kl "energy" then
              altExtract t n p cb f
            else if containsStr kl "protein" then altExtract t c n cb f
            else if containsStr kl "carb" || containsStr kl "sugar" then
              altExtract t c p n f
            else if containsStr kl "fat" || containsStr kl "lipid" then
              altExtract t c p cb n
            else altExtract t c p cb f
          else altExtract t c p cb f
      | none => altExtract t c p cb f

/-- The per-ingredient accumulation over an ingredients *object*
(venice.ts 1026-1045). -/
def ingredientsObjSum : List (String × JSVal) → ℤ → ℤ → ℤ → ℤ → ℤ × ℤ × ℤ × ℤ
  | [], c, p, cb, f => (c, p, cb, f)
  | (_, ing) :: t, c, p, cb, f =>
      if isObjLike ing then
        let c2 := if truthy (jsOr (getField ing "calories") (getField ing "energy")) then
            c + parseIntOr0 (jsOr (getField ing "calories") (getField ing "energy"))
          else c
        let p2 := if truthy (getField ing "protein") then
            p + parseIntOr0 (getField ing "protein")
          else p
        let cb2 := if truthy (jsOr (getField ing "carbs") (getField ing "carbohydrates")) then
            cb + parseIntOr0 (jsOr (getField ing "carbs") (getField ing "carbohydrates"))
          else cb
        let f2 := if truthy (getField ing "fat") then
            f + parseIntOr0 (getField ing "fat")
          else f
        ingredientsObjSum t c2 p2 cb2 f2
      else ingredientsObjSum t c p cb f

/-- `ingredient.nutrition_per_samosa || ingredient.nutrition || {}`. -/
def ingredientNutrition (ing : JSVal) : JSVal :=
  jsOrChain [getField ing "nutrition_per_samosa", getField ing "nutrition", .obj .nil]

/-- The `reduce` over an ingredients *array* summing calories
(venice.ts 1052-1057). -/
def arrCaloriesSum : List JSVal → ℤ → ℤ
  | [], acc => acc
  | ing :: t, acc =>
      let nutrition := ingredientNutrition ing
      let qty := parseIntOr1 (getField ing "quantity")
      let itemCalories := parseIntOr0 (getField nutrition "calories")
      arrCaloriesSum t (acc + itemCalories * qty)

/-- The `forEach` over an ingredients *array* summing macros
(venice.ts 1061-1067). -/
def arrMacroSums : List JSVal → ℤ → ℤ → ℤ → ℤ × ℤ × ℤ
  | [], p, cb, f => (p, cb, f)
  | ing :: t, p, cb, f =>
      let nutrition := ingredientNutrition ing
      let qty := parseIntOr1 (getField ing "quantity")
      arrMacroSums t
        (p + parseIntOr0 (getField nutrition "protein") * qty)
        (cb + parseIntOr0 (jsOr (getField nutrition "total_carbohydrates")
          (getField nutrition "carbs")) * qty)
        (f + parseIntOr0 (jsOr (getField nutrition "total_fat")
          (getField nutrition "fat")) * qty)

/-- The final food-type fallback estimates (venice.ts 1080-1204),
returning `(calories, proteinGrams, carbGrams, fatGrams)`. -/
def foodTypeEstimates (fl : String) (servings : ℤ) : ℤ × ℤ × ℤ × ℤ :=
  if containsStr fl "samosa" then
    let sc_sp_sf :=
      if containsStr fl "indian" || containsStr fl "punjabi" || containsStr fl "gujarati" then
        ((180 : ℤ), (3 : ℤ), (12 : ℤ))
      else if containsStr fl "pakistani" || containsStr fl "bengali" then (170, 3, 10)
      else if containsStr fl "middle eastern" || containsStr fl "sambusa" then (160, 4, 9)
      else (150, 3, 8)
    (sc_sp_sf.1 * servings, sc_sp_sf.2.1 * servings, 18 * servings, sc_sp_sf.2.2 * servings)
  else if containsStr fl "avocado" then
    let ac_af :=
      if containsStr fl "mexican" || containsStr fl "guacamole" then ((90 : ℤ), (8 : ℤ))
      else if containsStr fl "indian" || containsStr fl "chutney" then (85, 8)
      else (80, 7)
    (ac_af.1 * servings, 1 * servings, 4 * servings, ac_af.2 * servings)
  else if containsStr fl "curry" || containsStr fl "masala" then
    (200 * servings, 8 * servings, 25 * servings, 12 * servings)
  else if containsStr fl "rice" || containsStr fl "biryani" then
    if containsStr fl "biryani" || containsStr fl "pilaf" then
      (200 * servings, 3 * servings, 30 * servings, 8 * servings)
    else (150 * servings, 3 * servings, 30 * servings, 2 * servings)
  else if containsStr fl "soup" || containsStr fl "broth" || containsStr fl "stew" then
    if containsStr fl "tomato" || containsStr fl "cream" then
      (180 * servings, 6 * servings, 15 * servings, 12 * servings)
    else if containsStr fl "chicken" || containsStr fl "beef" then
      (150 * servings, 12 * servings, 15 * servings, 6 * servings)
    else (120 * servings, 6 * servings, 15 * servings, 4 * servings)
  else (200 * servings, 8 * servings, 25 * servings, 10 * servings)

/-- The macro-extraction phase (venice.ts 897-1204): the three source
branches (`nutritional_information`, ingredients array, legacy fields),
each followed by the shared food-type fallback. -/
def macroPhase (raw : JSVal) (fl : String) : ExtractState :=
  let base : ExtractState :=
    if truthy (getField raw "nutritional_information") then
      let nut := getField raw "nutritional_information"
      let calories0 := parseIntOr0 (jsOrChain
        [getField nut "total_calories", getField nut "calories", getField nut "energy",
         getField nut "kcal", getField nut "energy_kcal", .num 0])
      let pg0 := parseIntOr0 (jsOrChain
        [getField nut "protein", getField nut "protein_g", getField nut "protein_grams",
         .num 0])
      let cg0 := parseIntOr0 (jsOrChain
        [getField nut "total_carbohydrates", getField nut "carbohydrates",
         getField nut "carbs", getField nut "carbohydrate", getField nut "carb_g",
         getField nut "carb_grams", .num 0])
      let fg0 := parseIntOr0 (jsOrChain
        [getField nut "fat", getField nut "total_fat", getField nut "fat_g",
         getField nut "fat_grams", .num 0])
      let servings := parseIntOr1 (getField raw "servings")
      let fib0 := parseIntOr0 (jsOr (getField nut "dietary_fiber") (getField nut "fiber"))
      let sug0 := parseIntOr0 (jsOr (getField nut "sugars") (getField nut "sugar"))
      let sat0 := parseIntOr0 (jsOr (getField nut "saturated_fat") (getField nut "sat_fat"))
      let fss :=
        if fib0 = 0 ∧ sug0 = 0 ∧ sat0 = 0 then
          if containsStr fl "samosa" then
            (roundTimes cg0 15 100, roundTimes cg0 5 100, roundTimes fg0 3 10)
          else if containsStr fl "avocado" then
            (roundTimes cg0 6 10, roundTimes cg0 1 10, roundTimes fg0 15 100)
          else (roundTimes cg0 2 10, roundTimes cg0 1 10, roundTimes fg0 25 100)
        else (fib0, sug0, sat0)
      let unsat1 := fg0 - fss.2.2
      let cpcf1 :=
        if calories0 = 0 ∧ pg0 = 0 ∧ cg0 = 0 ∧ fg0 = 0 then
          altExtract (entriesOf nut) calories0 pg0 cg0 fg0
        else (calories0, pg0, cg0, fg0)
      let cpcf2 :=
        if cpcf1.1 = 0 ∧ cpcf1.2.1 = 0 ∧ cpcf1.2.2.1 = 0 ∧ cpcf1.2.2.2 = 0 ∧
            truthy (getField raw "ingredients") = true ∧
            isObjV (getField raw "ingredients") = true then
          ingredientsObjSum (entriesOf (getField raw "ingredients"))
            cpcf1.1 cpcf1.2.1 cpcf1.2.2.1 cpcf1.2.2.2
        else cpcf1
      { calories := cpcf2.1, servings := servings, pg := cpcf2.2.1, cg := cpcf2.2.2.1,
        fg := cpcf2.2.2.2, fib := fss.1, sug := fss.2.1, sat := fss.2.2, unsat := unsat1 }
    else if truthy (getField raw "ingredients") = true ∧
        isArrV (getField raw "ingredients") = true then
      match getField raw "ingredients" with
      | .arr xs =>
          let cal := arrCaloriesSum (jsarrToList xs) 0
          let pcf := arrMacroSums (jsarrToList xs) 0 0 0
          { calories := cal, servings := 1, pg := pcf.1, cg := pcf.2.1, fg := pcf.2.2,
            fib := 0, sug := 0, sat := 0, unsat := 0 }
      | _ =>
          { calories := 0, servings := 1, pg := 0, cg := 0, fg := 0,
            fib := 0, sug := 0, sat := 0, unsat := 0 }
    else
      let macros := jsOrChain
        [getField raw "macronutrients", getField raw "macros", .obj .nil]
      { calories := parseIntOr0 (getField raw "calories"),
        servings := parseIntOr1 (getField raw "servings"),
        pg := parseIntOr0 (getField macros "protein"),
        cg := parseIntOr0 (jsOr (getField macros "carbohydrates") (getField macros "carbs")),
        fg := parseIntOr0 (jsOr (getField macros "total_fat") (getField macros "fat")),
        fib := 0, sug := 0, sat := 0, unsat := 0 }
  if base.calories = 0 ∧ base.pg = 0 ∧ base.cg = 0 ∧ base.fg = 0 then
    let est := foodTypeEstimates fl base.servings
    { base with calories := est.1, pg := est.2.1, cg := est.2.2.1, fg := est.2.2.2 }
  else base

/-- The regional micronutrient estimates (venice.ts 1240-1352), in the
literal key order `sodiumMg, potassiumMg, cholesterolMg, calciumMg,
ironMg, vitaminCMg`. -/
def microEstimates (fl : String) : JSVal :=
  let mkMicros := fun (sodium potassium cholesterol calcium iron vitC : ℤ) =>
    JSVal.obj (jsObjOfList
      [("sodiumMg", .num sodium), ("potassiumMg", .num potassium),
       ("cholesterolMg", .num cholesterol), ("calciumMg", .num calcium),
       ("ironMg", .num iron), ("vitaminCMg", .num vitC)])
  if containsStr fl "samosa" then
    if containsStr fl "indian" || containsStr fl "punjabi" then
      mkMicros 400 200 0 30 3 20
    else if containsStr fl "pakistani" || containsStr fl "bengali" then
      mkMicros 350 200 0 30 2 18
    else if containsStr fl "middle eastern" || containsStr fl "sambusa" then
      mkMicros 250 250 0 30 2 12
    else mkMicros 300 200 0 30 2 15
  else if containsStr fl "avocado" then
    if containsStr fl "mexican" || containsStr fl "guacamole" then
      mkMicros 15 250 0 12 1 25
    else if containsStr fl "indian" || containsStr fl "chutney" then
      mkMicros 20 250 0 12 1 15
    else mkMicros 3 250 0 12 1 10
  else if containsStr fl "cilantro" || containsStr fl "coriander" then
    mkMicros 5 50 0 20 1 25
  else if containsStr fl "soup" || containsStr fl "broth" || containsStr fl "stew" then
    if containsStr fl "tomato" || containsStr fl "cream" then
      mkMicros 500 200 0 50 2 25
    else if containsStr fl "chicken" || containsStr fl "beef" then
      mkMicros 450 200 0 50 3 20
    else mkMicros 400 200 0 50 2 15
  else mkMicros 200 150 0 50 2 20

/-- The micronutrient selection (venice.ts 1212-1355): start from
`rawData.micronutrients || {}`, overridden by the
`nutritional_information` extraction when that key is truthy, then
replaced by the food-type estimates when the five checked fields are
all strictly equal to `0`. -/
def microPhase (raw : JSVal) (fl : String) : JSVal :=
  let micros0 := jsOr (getField raw "micronutrients") (.obj .nil)
  let micros1 :=
    if truthy (getField raw "nutritional_information") then
      let nut := getField raw "nutritional_information"
      JSVal.obj (jsObjOfList
        [("sodiumMg", .num (parseIntOr0 (jsOrChain
           [getField nut "sodium", getField nut "sodium_mg", getField nut "salt"]))),
         ("potassiumMg", .num (parseIntOr0 (jsOrChain
           [getField nut "potassium", getField nut "potassium_mg"]))),
         ("cholesterolMg", .num (parseIntOr0 (jsOrChain
           [getField nut "cholesterol", getField nut "cholesterol_mg"]))),
         ("calciumMg", .num (parseIntOr0 (jsOrChain
           [getField nut "calcium", getField nut "calcium_mg"]))),
         ("ironMg", .num (parseIntOr0 (jsOrChain
           [getField nut "iron", getField nut "iron_mg"]))),
         ("vitaminCMg", .num (parseIntOr0 (jsOrChain
           [getField nut "vitamin_c", getField nut "vitamin_c_mg",
            getField nut "vitaminC"])))])
    else micros0
  if getField micros1 "sodiumMg" = JSVal.num 0 ∧
      getField micros1 "potassiumMg" = JSVal.num 0 ∧
      getField micros1 "calciumMg" = JSVal.num 0 ∧
      getField micros1 "ironMg" = JSVal.num 0 ∧
      getField micros1 "vitaminCMg" = JSVal.num 0 then
    microEstimates fl
  else micros1

structure ItemT where
  name : JSVal
  quantity : String
  calories : ℤ
  massGrams : ℤ

/-- The items list (venice.ts 1357-1454). -/
def itemsPhase (raw : JSVal) (fi : String) (fl : String) (st : ExtractState) :
    List ItemT :=
  if truthy (getField raw "nutritional_information") then
    [{ name := .str fi, quantity := servingsStr st.servings,
       calories := st.calories, massGrams := 150 * st.servings }]
  else if truthy (getField raw "ingredients") = true ∧
      isArrV (getField raw "ingredients") = true then
    match getField raw "ingredients" with
    | .arr xs =>
        (jsarrToList xs).map (fun ing =>
          let nutrition := ingredientNutrition ing
          let qty := parseIntOr1 (getField ing "quantity")
          let itemCalories := parseIntOr0 (getField nutrition "calories")
          { name := jsOr (getField ing "name") (.str "Unknown Item"),
            quantity := piecesWordStr qty,
            calories := itemCalories * qty, massGrams := 50 * qty })
    | _ => []
  else if containsStr fl "samosa" then
    [{ name := .str "Vegetable Samosa", quantity := piecesSuffixStr st.servings,
       calories := roundTimes st.calories 8 10, massGrams := 60 * st.servings },
     { name := .str "Avocado Chutney", quantity := "1 serving",
       calories := roundTimes st.calories 15 100, massGrams := 30 },
     { name := .str "Cilantro Garnish", quantity := "1 serving",
       calories := roundTimes st.calories 5 100, massGrams := 5 }]
  else if containsStr fl "avocado" then
    [{ name := .str "Avocado", quantity := servingsStr st.servings,
       calories := roundTimes st.calories 9 10, massGrams := 50 * st.servings },
     { name := .str "Seasonings & Oil", quantity := "1 serving",
       calories := roundTimes st.calories 1 10, massGrams := 5 }]
  else if containsStr fl "soup" || containsStr fl "broth" || containsStr fl "stew" then
    [{ name := .str "Soup Base", quantity := servingsStr st.servings,
       calories := roundTimes st.calories 7 10, massGrams := 200 * st.servings },
     { name := .str "Cream & Dairy", quantity := "1 serving",
       calories := roundTimes st.calories 2 10, massGrams := 30 },
     { name := .str "Garnishes & Seasonings", quantity := "1 serving",
       calories := roundTimes st.calories 1 10, massGrams := 10 }]
  else
    [{ name := .str fi, quantity := servingsStr st.servings,
       calories := st.calories, massGrams := 150 * st.servings }]

/-- `getNutritionalSources` (venice.ts 1457-1500); the numeric
parameters of the source are unused there and omitted here. -/
def getNutritionalSources (foodName : String) :
    List String × List String × List String :=
  let fl := toLowerStr foodName
  let protein :=
    if containsStr fl "soup" || containsStr fl "tomato" then
      ["Vegetables (tomatoes, onions)", "Dairy (cream, cheese)", "Herbs and spices"]
    else if containsStr fl "samosa" then ["Potatoes", "Peas", "Wheat flour", "Spices"]
    else if containsStr fl "meat" || containsStr fl "chicken" || containsStr fl "beef" then
      ["Animal protein", "Muscle tissue"]
    else ["Plant proteins", "Legumes", "Grains"]
  let carbs :=
    if containsStr fl "soup" then
      ["Vegetables (tomatoes, onions)", "Natural sugars", "Dairy lactose"]
    else if containsStr fl "samosa" then
      ["Potatoes (starch)", "Wheat flour", "Peas", "Natural sugars"]
    else if containsStr fl "rice" || containsStr fl "pasta" then
      ["Starch", "Grains", "Natural sugars"]
    else ["Vegetables", "Grains", "Natural sugars"]
  let fat :=
    if containsStr fl "soup" then ["Cream", "Butter", "Oil", "Dairy fat"]
    else if containsStr fl "samosa" then ["Cooking oil", "Ghee", "Fried preparation"]
    else if containsStr fl "meat" then ["Animal fat", "Marbling", "Cooking oil"]
    else ["Cooking oil", "Natural fats", "Dairy"]
  (protein, carbs, fat)

structure AnalysisT where
  visualObservations : JSVal
  portionEstimate : JSVal
  confidenceNarrative : JSVal
  cautions : JSVal

def joinComma (l : List String) : String := String.intercalate ", " l

/-- The analysis block (venice.ts 1511-1553): defaults built from the
extraction, overridden field-by-field from
`rawData.analysis || rawData.visual_analysis || rawData.detailed_analysis`
when that is truthy (scalars wrapped into one-element arrays where the
source does so). -/
def analysisPhase (raw : JSVal) (fi : String) (st : ExtractState)
    (sources : List String × List String × List String) : AnalysisT :=
  let dflt : AnalysisT :=
    { visualObservations := .arr (jsArrOfList
        [.str ("Identified " ++ fi ++ " from visual analysis"),
         .str ("Portion size: " ++ servingsStr st.servings),
         .str ("Nutrition breakdown: " ++ intStr st.pg ++ "g protein, " ++
           intStr st.cg ++ "g carbs, " ++ intStr st.fg ++ "g fat"),
         .str ("Total energy: " ++ intStr st.calories ++ " calories"),
         .str ("Protein sources: " ++ joinComma sources.1),
         .str ("Carb sources: " ++ joinComma sources.2.1),
         .str ("Fat sources: " ++ joinComma sources.2.2)]),
      portionEstimate := .str ("Estimated " ++ servingsStr st.servings ++
        " based on visual analysis"),
      confidenceNarrative := .str ("High confidence in food identification (" ++ fi ++
        "), moderate confidence in portion size estimation"),
      cautions := .arr (jsArrOfList
        [.str "Portion size is estimated from visual analysis",
         .str "Nutrition values are calculated based on standard food databases",
         .str "Individual variations in preparation may affect actual values"]) }
  let a := jsOrChain
    [getField raw "analysis", getField raw "visual_analysis",
     getField raw "detailed_analysis"]
  if truthy a then
    { visualObservations :=
        if truthy (getField a "visual_observations") then
          if isArrV (getField a "visual_observations") then
            getField a "visual_observations"
          else .arr (jsArrOfList [getField a "visual_observations"])
        else dflt.visualObservations,
      portionEstimate :=
        if truthy (getField a "portion_estimate") then getField a "portion_estimate"
        else dflt.portionEstimate,
      confidenceNarrative :=
        if truthy (getField a "confidence_narrative") then
          getField a "confidence_narrative"
        else dflt.confidenceNarrative,
      cautions :=
        if truthy (getField a "cautions") then
          if isArrV (getField a "cautions") then getField a "cautions"
          else .arr (jsArrOfList [getField a "cautions"])
        else dflt.cautions }
  else dflt

/-- The notes list (venice.ts 1556-1564). -/
def notesOf (fi : String) (st : ExtractState)
    (sources : List String × List String × List String) : List String :=
  ["Analysis completed for " ++ fi,
   "Portion size: " ++ servingsStr st.servings,
   "Total calories: " ++ intStr st.calories,
   "Macros: " ++ intStr st.pg ++ "g protein, " ++ intStr st.cg ++ "g carbs, " ++
     intStr st.fg ++ "g fat",
   "Protein sources: " ++ joinComma sources.1,
   "Carb sources: " ++ joinComma sources.2.1,
   "Fat sources: " ++ joinComma sources.2.2]

structure MacroPC where
  grams : ℤ
  calories : ℤ

structure CarbsMacro where
  grams : ℤ
  calories : ℤ
  fiber : ℤ
  sugar : ℤ

structure FatMacro where
  grams : ℤ
  calories : ℤ
  saturated : ℤ
  unsaturated : ℤ

structure MacrosT where
  protein : MacroPC
  carbs : CarbsMacro
  fat : FatMacro

structure MicrosT where
  sodiumMg : ℤ
  potassiumMg : ℤ
  cholesterolMg : ℤ
  calciumMg : ℤ
  ironMg : ℤ
  vitaminCMg : ℤ

structure NutritionSummaryT where
  title : String
  confidence : ℤ
  servingDescription : String
  totalCalories : ℤ
  macros : MacrosT
  micronutrients : MicrosT
  items : List ItemT
  notes : List String
  analysis : AnalysisT

/-- The final object literal (venice.ts 1566-1600): macro calories are
computed from the final gram counts at `4/4/9` kcal per gram
(lines 1206-1209); the fiber/sugar/saturated/unsaturated and
micronutrient fields fall back to `parseInt` of (mostly absent) `micros`
fields. -/
def assembleSummary (fi : String) (st : ExtractState) (micros : JSVal)
    (items : List ItemT) (notes : List String) (analysis : AnalysisT) :
    NutritionSummaryT :=
  { title := fi,
    confidence := 85,
    servingDescription := servingsStr st.servings ++ " of " ++ fi,
    totalCalories := st.calories,
    macros :=
      { protein := { grams := st.pg, calories := st.pg * 4 },
        carbs :=
          { grams := st.cg, calories := st.cg * 4,
            fiber := if st.fib ≠ 0 then st.fib
              else parseIntOr0 (getField micros "fiber"),
            sugar := if st.sug ≠ 0 then st.sug
              else parseIntOr0 (getField micros "sugar") },
        fat :=
          { grams := st.fg, calories := st.fg * 9,
            saturated := if st.sat ≠ 0 then st.sat
              else parseIntOr0 (getField micros "saturated_fat"),
            unsaturated := if st.unsat ≠ 0 then st.unsat
              else parseIntOr0 (getField micros "unsaturated_fat") } },
    micronutrients :=
      { sodiumMg := parseIntOr0 (getField micros "sodium"),
        potassiumMg := parseIntOr0 (getField micros "potassium"),
        cholesterolMg := parseIntOr0 (getField micros "cholesterol"),
        calciumMg := parseIntOr0 (getField micros "calcium"),
        ironMg := parseIntOr0 (getField micros "iron"),
        vitaminCMg := parseIntOr0 (getField micros "vitamin_C") },
    items := items,
    notes := notes,
    analysis := analysis }

/-- `rawData.dish_name || rawData.food_item || rawData.title || "Unknown Food"`. -/
def foodItemOf (raw : JSVal) : JSVal :=
  jsOrChain [getField raw "dish_name", getField raw "food_item",
    getField raw "title", .str "Unknown Food"]

/-- `transformVisionModelOutput`.  Reading a property of `null` or
`undefined` throws; a non-string truthy `foodItem` throws at the first
`foodItem.toLowerCase()` (the unconditional `getNutritionalSources`
call guarantees one is reached before the summary is assembled), so
both are modelled as early errors. -/
def transformVisionModelOutput (raw : JSVal) : Except String NutritionSummaryT :=
  match raw with
  | .null => .error "TypeError: Cannot read properties of null"
  | .undefined => .error "TypeError: Cannot read properties of undefined"
  | _ =>
      match foodItemOf raw with
      | .str fi =>
          let fl := toLowerStr fi
          let st := macroPhase raw fl
          let micros := microPhase raw fl
          let sources := getNutritionalSources fi
          .ok (assembleSummary fi st micros (itemsPhase raw fi fl st)
            (notesOf fi st sources) (analysisPhase raw fi st sources))
      | _ => .error "TypeError: foodItem.toLowerCase is not a function"

/-! ### Claim C9 -/

/-- C9: every `NutritionSummary` produced by
`transformVisionModelOutput` derives its macro calories from the gram
counts at the fixed factors 4 kcal/g protein, 4 kcal/g carbs and
9 kcal/g fat. -/
theorem c9_macro_calorie_factors (raw : JSVal) :
    match transformVisionModelOutput raw with
    | .ok s =>
        s.macros.protein.calories = 4 * s.macros.protein.grams ∧
        s.macros.carbs.calories = 4 * s.macros.carbs.grams ∧
        s.macros.fat.calories = 9 * s.macros.fat.grams
    | .error _ => True := by
  cases raw with
  | null => trivial
  | undefined => trivial
  | bool b =>
      cases hfi : foodItemOf (JSVal.bool b) with
      | str fi => simp only [transformVisionModelOutput, hfi, assembleSummary]; omega
      | _ => simp only [transformVisionModelOutput, hfi]
  | num q =>
      cases hfi : foodItemOf (JSVal.num q) with
      | str fi => simp only [transformVisionModelOutput, hfi, assembleSummary]; omega
      | _ => simp only [transformVisionModelOutput, hfi]
  | str s =>
      cases hfi : foodItemOf (JSVal.str s) with
      | str fi => simp only [transformVisionModelOutput, hfi, assembleSummary]; omega
      | _ => simp only [transformVisionModelOutput, hfi]
  | arr xs =>
      cases hfi : foodItemOf (JSVal.arr xs) with
      | str fi => simp only [transformVisionModelOutput, hfi, assembleSummary]; omega
      | _ => simp only [transformVisionModelOutput, hfi]
  | obj fs =>
      cases hfi : foodItemOf (JSVal.obj fs) with
      | str fi => simp only [transformVisionModelOutput, hfi, assembleSummary]; omega
      | _ => simp only [transformVisionModelOutput, hfi]

/-! ### Claim C3: step contracts and match-step evaluations -/

theorem stepTruncLong_shrinks : StepShrinks stepTruncLong := by
  intro c rest
  simp only [stepTruncLong]
  split
  · split
    case _ r2 hr =>
      split
      · have h1 := length_dropWhile_le isDigitChar (c :: rest)
        rw [hr] at h1
        have h2 := length_dropWhile_le isDigitChar r2
        simp only [List.length_cons] at h1 ⊢
        omega
      · simp
    case _ => simp
  · simp

theorem stepFixDecimals_shrinks : StepShrinks stepFixDecimals := by
  intro c rest
  simp only [stepFixDecimals]
  split
  · split
    case _ r2 hr =>
      split
      · simp
      · split
        · simp
        · have h0 := length_dropWhile_le isWsChar rest
          have h1 := length_dropWhile_le isDigitChar (rest.dropWhile isWsChar)
          rw [hr] at h1
          have h2 := length_dropWhile_le isDigitChar r2
          simp only [List.length_cons] at h1 ⊢
          omega
    case _ => simp
  · simp

theorem stepRmTrailingCommas_shrinks : StepShrinks stepRmTrailingCommas := by
  intro c rest
  simp only [stepRmTrailingCommas]
  split
  · split
    case _ d r2 hr =>
      split
      · have h1 := length_dropWhile_le isWsChar rest
        rw [hr] at h1
        simp only [List.length_cons] at h1 ⊢
        omega
      · simp
    case _ => simp
  · simp

theorem stepQuoteKeys_shrinks : StepShrinks stepQuoteKeys := by
  intro c rest
  simp only [stepQuoteKeys]
  split
  · split
    case _ r2 hr =>
      split
      · simp
      · have h0 := length_dropWhile_le isWsChar rest
        have h1 := length_dropWhile_le isWordChar (rest.dropWhile isWsChar)
        rw [hr] at h1
        simp only [List.length_cons] at h1 ⊢
        omega
    case _ => simp
  · simp

theorem stepQuoteBare_shrinks : StepShrinks stepQuoteBare := by
  intro c rest
  simp only [stepQuoteBare]
  split
  · split
    case _ c0 r1 hc =>
      split
      · simp
      · split
        case _ d r3 hd =>
          split
          · have h1 := length_dropWhile_le isWsChar rest
            rw [hc] at h1
            have h2 := length_dropWhile_le isTokenChar r1
            have h3 := length_dropWhile_le isWsChar (r1.dropWhile isTokenChar)
            rw [hd] at h3
            simp only [List.length_cons] at h1 h3 ⊢
            omega
          · simp
        case _ => simp
    case _ => simp
  · simp

theorem stepFixDecimals_other {c : Char} {rest : List Char} (h : ¬c = ':') :
    stepFixDecimals (c :: rest) = ([c], rest) := by
  simp only [stepFixDecimals, if_neg h]

theorem stepRmTrailingCommas_other {c : Char} {rest : List Char} (h : ¬c = ',') :
    stepRmTrailingCommas (c :: rest) = ([c], rest) := by
  simp only [stepRmTrailingCommas, if_neg h]

theorem stepQuoteKeys_other {c : Char} {rest : List Char} (h : ¬(c = '{' ∨ c = ',')) :
    stepQuoteKeys (c :: rest) = ([c], rest) := by
  simp only [stepQuoteKeys, if_neg h]

/-- A scanner emits a non-matching character unchanged. -/
theorem scanRun_other {step : List Char → List Char × List Char}
    (hstep : StepShrinks step) {c : Char} {rest : List Char}
    (h : step (c :: rest) = ([c], rest)) :
    scanRun step (c :: rest) = c :: scanRun step rest := by
  rw [scanRun_cons hstep, h]
  rfl

theorem word_not_ws {c : Char} (h : isWordChar c = true) : isWsChar c = false := by
  simp only [isWordChar, Bool.or_eq_true, Bool.and_eq_true, decide_eq_true_eq] at h
  simp only [isWsChar, Bool.or_eq_false_iff, decide_eq_false_iff_not]
  omega

theorem stepFixDecimals_match {ws D F post : List Char}
    (hws : ∀ c ∈ ws, isWsChar c = true)
    (hD : D ≠ []) (hDdig : ∀ c ∈ D, isDigitChar c = true)
    (hF : F ≠ []) (hFdig : ∀ c ∈ F, isDigitChar c = true)
    (hpost : ∀ c, post.head? = some c → isDigitChar c = false) :
    stepFixDecimals (':' :: (ws ++ (D ++ '.' :: (F ++ post)))) =
      (':' :: ' ' :: D, post) := by
  have hbD : ∀ c, (D ++ '.' :: (F ++ post)).head? = some c → isWsChar c = false := by
    obtain ⟨d, D', rfl⟩ := List.exists_cons_of_ne_nil hD
    intro c hc
    simp only [List.cons_append, List.head?_cons, Option.some.injEq] at hc
    subst hc
    exact digit_not_ws (hDdig _ (List.mem_cons_self _ _))
  have hbDot : ∀ c, ('.' :: (F ++ post)).head? = some c → isDigitChar c = false := by
    intro c hc
    simp only [List.head?_cons, Option.some.injEq] at hc
    subst hc
    decide
  have h1 := dropWhile_append_all hws hbD
  have h1t := takeWhile_append_all hws hbD
  have h2 := dropWhile_append_all hDdig hbDot
  have h2t := takeWhile_append_all hDdig hbDot
  have h3t := takeWhile_append_all hFdig hpost
  have h3d := dropWhile_append_all hFdig hpost
  simp only [stepFixDecimals, eq_self_iff_true, if_true, h1, h1t, h2, h2t, h3t, h3d]
  rw [if_neg (by simp [hD]), if_neg (by simp [hF])]

theorem fixDecimals_replaces {pre ws D F post : List Char}
    (hpre : ∀ c ∈ pre, ¬(c = ':'))
    (hws : ∀ c ∈ ws, isWsChar c = true)
    (hD : D ≠ []) (hDdig : ∀ c ∈ D, isDigitChar c = true)
    (hF : F ≠ []) (hFdig : ∀ c ∈ F, isDigitChar c = true)
    (hpost : ∀ c, post.head? = some c → isDigitChar c = false) :
    fixDecimals (pre ++ (':' :: (ws ++ (D ++ '.' :: (F ++ post))))) =
      pre ++ (':' :: ' ' :: (D ++ fixDecimals post)) := by
  induction pre with
  | nil =>
      simp only [List.nil_append, fixDecimals]
      rw [scanRun_cons stepFixDecimals_shrinks,
        stepFixDecimals_match hws hD hDdig hF hFdig hpost]
      simp
  | cons p pre' ih =>
      have hp : ¬(p = ':') := hpre p (List.mem_cons_self p pre')
      simp only [List.cons_append, fixDecimals] at ih ⊢
      rw [scanRun_other stepFixDecimals_shrinks (stepFixDecimals_other hp),
        ih (fun c hc => hpre c (List.mem_cons_of_mem _ hc))]

theorem stepRmTrailingCommas_match {ws post : List Char} {d : Char}
    (hws : ∀ c ∈ ws, isWsChar c = true) (hd : d = '}' ∨ d = ']') :
    stepRmTrailingCommas (',' :: (ws ++ d :: post)) = (ws ++ [d], post) := by
  have hbd : ∀ c, (d :: post).head? = some c → isWsChar c = false := by
    intro c hc
    simp only [List.head?_cons, Option.some.injEq] at hc
    subst hc
    rcases hd with h | h <;> subst h <;> decide
  have h1 := dropWhile_append_all hws hbd
  have h1t := takeWhile_append_all hws hbd
  simp only [stepRmTrailingCommas, eq_self_iff_true, if_true, h1, h1t]
  rw [if_pos hd]

theorem rmTrailingCommas_removes {pre ws post : List Char} {d : Char}
    (hpre : ∀ c ∈ pre, ¬(c = ','))
    (hws : ∀ c ∈ ws, isWsChar c = true) (hd : d = '}' ∨ d = ']') :
    rmTrailingCommas (pre ++ (',' :: (ws ++ d :: post))) =
      pre ++ (ws ++ d :: rmTrailingCommas post) := by
  induction pre with
  | nil =>
      simp only [List.nil_append, rmTrailingCommas]
      rw [scanRun_cons stepRmTrailingCommas_shrinks, stepRmTrailingCommas_match hws hd]
      simp
  | cons p pre' ih =>
      have hp : ¬(p = ',') := hpre p (List.mem_cons_self p pre')
      simp only [List.cons_append, rmTrailingCommas] at ih ⊢
      rw [scanRun_other stepRmTrailingCommas_shrinks (stepRmTrailingCommas_other hp),
        ih (fun c hc => hpre c (List.mem_cons_of_mem _ hc))]

theorem stepQuoteKeys_match {ws w post : List Char} {o : Char}
    (ho : o = '{' ∨ o = ',') (hws : ∀ c ∈ ws, isWsChar c = true)
    (hw : w ≠ []) (hword : ∀ c ∈ w, isWordChar c = true) :
    stepQuoteKeys (o :: (ws ++ (w ++ ':' :: post))) =
      (o :: ws ++ '"' :: w ++ ['"', ':'], post) := by
  have hbw : ∀ c, (w ++ ':' :: post).head? = some c → isWsChar c = false := by
    obtain ⟨x, w', rfl⟩ := List.exists_cons_of_ne_nil hw
    intro c hc
    simp only [List.cons_append, List.head?_cons, Option.some.injEq] at hc
    subst hc
    exact word_not_ws (hword _ (List.mem_cons_self _ _))
  have hbc : ∀ c, (':' :: post).head? = some c → isWordChar c = false := by
    intro c hc
    simp only [List.head?_cons, Option.some.injEq] at hc
    subst hc
    decide
  have h1 := dropWhile_append_all hws hbw
  have h1t := takeWhile_append_all hws hbw
  have h2 := dropWhile_append_all hword hbc
  have h2t := takeWhile_append_all hword hbc
  simp only [stepQuoteKeys, if_pos ho, h1, h1t, h2, h2t]
  rw [if_neg (by simp [hw])]

theorem quoteKeys_quotes {pre ws w post : List Char} {o : Char}
    (hpre : ∀ c ∈ pre, ¬(c = '{' ∨ c = ','))
    (ho : o = '{' ∨ o = ',') (hws : ∀ c ∈ ws, isWsChar c = true)
    (hw : w ≠ []) (hword : ∀ c ∈ w, isWordChar c = true) :
    quoteKeys (pre ++ (o :: (ws ++ (w ++ ':' :: post)))) =
      pre ++ (o :: (ws ++ ('"' :: (w ++ '"' :: ':' :: quoteKeys post)))) := by
  induction pre with
  | nil =>
      simp only [List.nil_append, quoteKeys]
      rw [scanRun_cons stepQuoteKeys_shrinks, stepQuoteKeys_match ho hws hw hword]
      simp
  | cons p pre' ih =>
      have hp : ¬(p = '{' ∨ p = ',') := hpre p (List.mem_cons_self p pre')
      simp only [List.cons_append, quoteKeys] at ih ⊢
      rw [scanRun_other stepQuoteKeys_shrinks (stepQuoteKeys_other hp),
        ih (fun c hc => hpre c (List.mem_cons_of_mem _ hc))]

theorem stepFixDecimals_skip {rest : List Char}
    (h : ∀ c, (rest.dropWhile isWsChar).head? = some c → isDigitChar c = false) :
    stepFixDecimals (':' :: rest) = ([':'], rest) := by
  simp only [stepFixDecimals, eq_self_iff_true, if_true]
  cases hh : rest.dropWhile isWsChar with
  | nil => simp
  | cons c t =>
      have hc : isDigitChar c = false := h c (by rw [hh]; rfl)
      simp only [hh, List.takeWhile_cons, List.dropWhile_cons, hc,
        Bool.false_eq_true, if_false]
      split
      case _ r2 heq => simp
      case _ => rfl

theorem fixDecimals_skip_colon {rest : List Char}
    (h : ∀ c, (rest.dropWhile isWsChar).head? = some c → isDigitChar c = false) :
    fixDecimals (':' :: rest) = ':' :: fixDecimals rest :=
  scanRun_other stepFixDecimals_shrinks (stepFixDecimals_skip h)

theorem stepRmTrailingCommas_skip {rest : List Char}
    (h : ∀ c, (rest.dropWhile isWsChar).head? = some c →
      ¬(c = '}' ∨ c = ']')) :
    stepRmTrailingCommas (',' :: rest) = ([','], rest) := by
  simp only [stepRmTrailingCommas, eq_self_iff_true, if_true]
  cases hh : rest.dropWhile isWsChar with
  | nil => rfl
  | cons c t =>
      have hc := h c (by rw [hh]; rfl)
      simp [hc]

theorem rmTrailingCommas_skip_comma {rest : List Char}
    (h : ∀ c, (rest.dropWhile isWsChar).head? = some c →
      ¬(c = '}' ∨ c = ']')) :
    rmTrailingCommas (',' :: rest) = ',' :: rmTrailingCommas rest :=
  scanRun_other stepRmTrailingCommas_shrinks (stepRmTrailingCommas_skip h)

theorem stepQuoteKeys_skip {o : Char} {rest : List Char} (ho : o = '{' ∨ o = ',')
    (h : ∀ c, (rest.dropWhile isWsChar).head? = some c → isWordChar c = false) :
    stepQuoteKeys (o :: rest) = ([o], rest) := by
  simp only [stepQuoteKeys, if_pos ho]
  cases hh : rest.dropWhile isWsChar with
  | nil => simp
  | cons c t =>
      have hc : isWordChar c = false := h c (by rw [hh]; rfl)
      simp only [List.takeWhile_cons, List.dropWhile_cons, hc,
        Bool.false_eq_true, if_false]
      split
      case _ r2 heq => simp
      case _ => rfl

theorem quoteKeys_skip_opener {o : Char} {rest : List Char} (ho : o = '{' ∨ o = ',')
    (h : ∀ c, (rest.dropWhile isWsChar).head? = some c → isWordChar c = false) :
    quoteKeys (o :: rest) = o :: quoteKeys rest :=
  scanRun_other stepQuoteKeys_shrinks (stepQuoteKeys_skip ho h)

theorem parseFallback_behavior (env : VeniceEnv) (d : String) (l : Language)
    (data : JSVal) (content : String)
    (h1 : env.textResponse d l true = .ok data)
    (h2 : extractTextFromResponse data = some content)
    (h3 : content ≠ "")
    (hp : jsonParseChars (cleanupJson (extractJsonCandidate content.toList)) = none) :
    (coreMatch (cleanupJson (extractJsonCandidate content.toList)) = none →
      calculateNutritionFromDescription env d l = .error nutritionParseFailMsg) ∧
    (∀ m, coreMatch (cleanupJson (extractJsonCandidate content.toList)) = some m →
      calculateNutritionFromDescription env d l =
        (match jsonParseChars m with
         | some v => .ok v
         | none => .error nutritionParseFailMsg)) := by
  have hf : fetchNutritionData env d l = .ok (data, true) := by
    simp only [fetchNutritionData, h1]
  constructor
  · intro hcm
    simp only [calculateNutritionFromDescription, hf, h2]
    rw [if_neg h3]
    simp only [parseNutritionContent, hp, hcm]
  · intro m hcm
    simp only [calculateNutritionFromDescription, hf, h2]
    rw [if_neg h3]
    simp only [parseNutritionContent, hp, hcm]

/-- C3: the regex-based JSON repair and its fallback.
(a) Step 3 replaces every numeric field value `": d.f"` by `": d"` —
the fractional digits are dropped, not rounded: in any context whose
prefix contains no further `:` (earlier matches are handled by
re-applying the equation, whose right-hand side recurses on the
remaining input), `pre ++ ":" ++ ws ++ D ++ "." ++ F ++ post` rewrites
to `pre ++ ": " ++ D ++ <scan of post>`.
(b) Step 4 removes every comma whose next non-whitespace character is a
closing brace or bracket (and keeps that closer).
(c) Step 5a wraps an unquoted object key — a nonempty `\w+` run between
`{`/`,` and `:` — in double quotes.
(a′)(b′)(c′) A trigger character that does not start a match passes
through unchanged and the scan continues on the rest: a `:` whose next
non-whitespace character is not a digit, a `,` whose next non-whitespace
character closes nothing, a `{`/`,` whose next non-whitespace character
is not a word character.
(d) When `JSON.parse` on the cleaned string still fails, the substring
from the first `{` that is followed by `"title"` and later by `}`
(greedily to the last such `}`) is extracted and parsed, and when no
such substring exists the function throws
`"Failed to parse nutrition data. The model returned invalid JSON
format."` — as it also does when that second parse fails. -/
theorem c3_regex_repair_and_fallback :
    (∀ pre ws D F post : List Char,
      (∀ c ∈ pre, ¬(c = ':')) → (∀ c ∈ ws, isWsChar c = true) →
      D ≠ [] → (∀ c ∈ D, isDigitChar c = true) →
      F ≠ [] → (∀ c ∈ F, isDigitChar c = true) →
      (∀ c, post.head? = some c → isDigitChar c = false) →
      fixDecimals (pre ++ (':' :: (ws ++ (D ++ '.' :: (F ++ post))))) =
        pre ++ (':' :: ' ' :: (D ++ fixDecimals post))) ∧
    (∀ (pre ws post : List Char) (d : Char),
      (∀ c ∈ pre, ¬(c = ',')) → (∀ c ∈ ws, isWsChar c = true) →
      (d = '}' ∨ d = ']') →
      rmTrailingCommas (pre ++ (',' :: (ws ++ d :: post))) =
        pre ++ (ws ++ d :: rmTrailingCommas post)) ∧
    (∀ (pre ws w post : List Char) (o : Char),
      (∀ c ∈ pre, ¬(c = '{' ∨ c = ',')) → (o = '{' ∨ o = ',') →
      (∀ c ∈ ws, isWsChar c = true) →
      w ≠ [] → (∀ c ∈ w, isWordChar c = true) →
      quoteKeys (pre ++ (o :: (ws ++ (w ++ ':' :: post)))) =
        pre ++ (o :: (ws ++ ('"' :: (w ++ '"' :: ':' :: quoteKeys post))))) ∧
    (∀ rest : List Char,
      (∀ c, (rest.dropWhile isWsChar).head? = some c → isDigitChar c = false) →
      fixDecimals (':' :: rest) = ':' :: fixDecimals rest) ∧
    (∀ rest : List Char,
      (∀ c, (rest.dropWhile isWsChar).head? = some c → ¬(c = '}' ∨ c = ']')) →
      rmTrailingCommas (',' :: rest) = ',' :: rmTrailingCommas rest) ∧
    (∀ (rest : List Char) (o : Char), (o = '{' ∨ o = ',') →
      (∀ c, (rest.dropWhile isWsChar).head? = some c → isWordChar c = false) →
      quoteKeys (o :: rest) = o :: quoteKeys rest) ∧
    (∀ (env : VeniceEnv) (d : String) (l : Language) (data : JSVal) (content : String),
      env.textResponse d l true = .ok data →
      extractTextFromResponse data = some content →
      content ≠ "" →
      jsonParseChars (cleanupJson (extractJsonCandidate content.toList)) = none →
      (coreMatch (cleanupJson (extractJsonCandidate content.toList)) = none →
        calculateNutritionFromDescription env d l = .error nutritionParseFailMsg) ∧
      (∀ m, coreMatch (cleanupJson (extractJsonCandidate content.toList)) = some m →
        calculateNutritionFromDescription env d l =
          (match jsonParseChars m with
           | some v => .ok v
           | none => .error nutritionParseFailMsg))) :=
  ⟨fun _ _ _ _ _ hpre hws hD hDdig hF hFdig hpost =>
      fixDecimals_replaces hpre hws hD hDdig hF hFdig hpost,
    fun _ _ _ _ hpre hws hd => rmTrailingCommas_removes hpre hws hd,
    fun _ _ _ _ _ hpre ho hws hw hword => quoteKeys_quotes hpre ho hws hw hword,
    fun _ h => fixDecimals_skip_colon h,
    fun _ h => rmTrailingCommas_skip_comma h,
    fun _ _ ho h => quoteKeys_skip_opener ho h,
    fun env d l data content h1 h2 h3 hp =>
      parseFallback_behavior env d l data content h1 h2 h3 hp⟩

def c3Env : VeniceEnv where
  processedImage := .error "unused"
  visionResponse := fun _ _ => .error "unused"
  textResponse := fun _ _ _ => .ok (mkChoicesResponse (JSVal.str "hello"))
  elapsedSeconds := 0

/-- C3 witness: the theorem applied at concrete inputs —
`{"cal": 12.5}` has its decimals truncated, `[1, ]` loses the trailing
comma, `{title: …}` gets its key quoted, non-matching `:`/`,` trigger
characters pass through, and a stage-2 response `"hello"` (no JSON, no
`"title"` substring) produces the fixed parse error. -/
theorem c3_regex_repair_witness :
    fixDecimals ("\x7b\"cal\"".toList ++
        (':' :: ([' '] ++ (['1', '2'] ++ '.' :: (['5'] ++ ['}']))))) =
      "\x7b\"cal\"".toList ++ (':' :: ' ' :: (['1', '2'] ++ fixDecimals ['}'])) ∧
    rmTrailingCommas ("[1".toList ++ (',' :: ([' '] ++ ']' :: []))) =
      "[1".toList ++ ([' '] ++ ']' :: rmTrailingCommas []) ∧
    quoteKeys ([] ++ ('{' :: ([] ++ ("title".toList ++ ':' :: " 1\x7d".toList)))) =
      [] ++ ('{' :: ([] ++ ('"' :: ("title".toList ++ '"' :: ':' :: quoteKeys " 1\x7d".toList)))) ∧
    fixDecimals (':' :: " x".toList) = ':' :: fixDecimals " x".toList ∧
    rmTrailingCommas (',' :: " 2]".toList) = ',' :: rmTrailingCommas " 2]".toList ∧
    quoteKeys (',' :: " \"a\"".toList) = ',' :: quoteKeys " \"a\"".toList ∧
    calculateNutritionFromDescription c3Env "food" Language.english =
      .error nutritionParseFailMsg :=
  ⟨c3_regex_repair_and_fallback.1 "\x7b\"cal\"".toList [' '] ['1', '2'] ['5'] ['}']
      (by decide) (by decide) (by decide) (by decide) (by decide) (by decide)
      (fun c hc => by
        simp only [List.head?_cons, Option.some.injEq] at hc
        subst hc
        decide),
    c3_regex_repair_and_fallback.2.1 "[1".toList [' '] [] ']'
      (by decide) (by decide) (Or.inr rfl),
    c3_regex_repair_and_fallback.2.2.1 [] [] "title".toList " 1\x7d".toList '{'
      (by decide) (Or.inl rfl) (by decide) (by decide) (by decide),
    c3_regex_repair_and_fallback.2.2.2.1 " x".toList
      (fun c hc => by
        have h0 : (" x".toList.dropWhile isWsChar).head? = some 'x' := by decide
        rw [h0, Option.some.injEq] at hc
        subst hc
        decide),
    c3_regex_repair_and_fallback.2.2.2.2.1 " 2]".toList
      (fun c hc => by
        have h0 : (" 2]".toList.dropWhile isWsChar).head? = some '2' := by decide
        rw [h0, Option.some.injEq] at hc
        subst hc
        decide),
    c3_regex_repair_and_fallback.2.2.2.2.2.1 " \"a\"".toList ',' (Or.inr rfl)
      (fun c hc => by
        have h0 : (" \"a\"".toList.dropWhile isWsChar).head? = some '"' := by decide
        rw [h0, Option.some.injEq] at hc
        subst hc
        decide),
    (c3_regex_repair_and_fallback.2.2.2.2.2.2 c3Env "food" Language.english
      (mkChoicesResponse (JSVal.str "hello")) "hello" rfl rfl (by decide) rfl).1 rfl⟩

end CalorieApp
